import Mathlib

/-
Verification development for the llm-brand-tracker repository.

Shallow embedding of the analysis-pipeline core:
  src/server/services/scraper.ts      (extractUrlsFromText, extractDomainFromUrl)
  src/server/storage.ts               (MemStorage entity operations)
  src/server/services/openai.ts       (generatePromptsForTopic, fallback data)
  src/server/services/prompt-generator.ts (isDiverse, generateDiversePrompts)
  src/server/services/analyzer.ts     (BrandAnalyzer.runFullAnalysis)

JavaScript strings are modelled as Lean String values manipulated through
their character lists; JavaScript numbers that hold counts are modelled as
Int / Nat, rates and progress percentages as rationals.  Nullable columns
are Option values, and the JavaScript "x || null" falsy coercion is made
explicit.  External collaborators (the OpenAI adapter, Math.random) are
modelled as oracle inputs: every value the network or the RNG can produce
is universally quantified, while all control flow and data handling is
translated from the source.
-/

namespace LBT

/-! ### Character and string utilities (ASCII-faithful models of the
JavaScript string primitives used by the core). -/

/-- Characters that the embedding treats as whitespace.  JavaScript regex
class backslash-s also covers rarer unicode spaces; the core only ever
meets ASCII whitespace. -/
def isWs (c : Char) : Bool :=
  c == ' ' || c == '\t' || c == '\n' || c == '\r'

def lbraceCh : Char := Char.ofNat 123

def rbraceCh : Char := Char.ofNat 125

def backquoteCh : Char := Char.ofNat 96

def squoteCh : Char := Char.ofNat 39

def isDigitCh (c : Char) : Bool := '0' ≤ c && c ≤ '9'

def isAlphaCh (c : Char) : Bool :=
  ('a' ≤ c && c ≤ 'z') || ('A' ≤ c && c ≤ 'Z')

def isAlnumCh (c : Char) : Bool := isAlphaCh c || isDigitCh c

/-- Regex word character, used by the backslash-b boundary of the IP
address pattern. -/
def isWordCh (c : Char) : Bool := isAlnumCh c || c == '_'

/-- Characters allowed inside a hostname label by the bare-domain pattern:
[a-zA-Z0-9-]. -/
def isLabelCh (c : Char) : Bool := isAlnumCh c || c == '-'

def strOfList (l : List Char) : String := String.mk l

def asciiToLower (c : Char) : Char :=
  if 'A' ≤ c ∧ c ≤ 'Z' then Char.ofNat (c.toNat + 32) else c

/-- Model of JavaScript String.prototype.toLowerCase restricted to ASCII. -/
def strToLower (s : String) : String := strOfList (s.data.map asciiToLower)

def asciiToUpper (c : Char) : Char :=
  if 'a' ≤ c ∧ c ≤ 'z' then Char.ofNat (c.toNat - 32) else c

/-- Model of JavaScript String.prototype.trim. -/
def jsTrimL (l : List Char) : List Char :=
  ((l.dropWhile isWs).reverse.dropWhile isWs).reverse

def jsTrim (s : String) : String := strOfList (jsTrimL s.data)

def listStartsWith (l pat : List Char) : Bool := pat.isPrefixOf l

def startsWithStr (s pat : String) : Bool := listStartsWith s.data pat.data

/-- Model of JavaScript String.prototype.includes (substring search). -/
def listContainsSub : List Char → List Char → Bool
  | l, pat =>
    if pat.isPrefixOf l then true
    else
      match l with
      | [] => false
      | _ :: rest => listContainsSub rest pat

def containsStr (s pat : String) : Bool := listContainsSub s.data pat.data

def endsWithStr (s pat : String) : Bool := pat.data.isSuffixOf s.data

/-- Model of JavaScript String.prototype.split with a single-character
separator: keeps empty segments, and splitting the empty string yields one
empty segment. -/
def splitOnCharAux (sep : Char) : List Char → List Char → List String
  | acc, [] => [strOfList acc.reverse]
  | acc, c :: rest =>
    if c == sep then strOfList acc.reverse :: splitOnCharAux sep [] rest
    else splitOnCharAux sep (c :: acc) rest

def splitOnChar (sep : Char) (s : String) : List String :=
  splitOnCharAux sep [] s.data

/-- Maximal non-whitespace runs of a string.  JavaScript split on the
regex backslash-s-plus can additionally produce one empty leading segment;
every caller in the core filters segments by length afterwards, which
drops that empty segment, so the two agree after filtering. -/
def splitWsAux : Nat → List Char → List String
  | 0, _ => []
  | _ + 1, [] => []
  | n + 1, c :: rest =>
    if isWs c then splitWsAux n rest
    else
      let w := rest.takeWhile (fun d => !isWs d)
      strOfList (c :: w) :: splitWsAux n (rest.drop w.length)

def splitWs (s : String) : List String := splitWsAux s.data.length s.data

/-- Insertion-order deduplication, the behaviour of building a JavaScript
Set from an array and spreading it back (first occurrence wins). -/
def dedupFirstAux : List String → List String → List String
  | _, [] => []
  | seen, x :: xs =>
    if seen.contains x then dedupFirstAux seen xs
    else x :: dedupFirstAux (x :: seen) xs

def dedupFirst (l : List String) : List String := dedupFirstAux [] l

/-- Model of JavaScript Array.prototype.join with separator ", ". -/
def joinComma : List String → String
  | [] => ""
  | [x] => x
  | x :: y :: rest => x ++ ", " ++ joinComma (y :: rest)

/-! ### URL extraction — src/server/services/scraper.ts, extractUrlsFromText.

Each of the five regex patterns is embedded as a matcher that, at a given
position, either fails or returns the matched characters together with the
remaining input, reproducing the leftmost, greedy, backtracking semantics
of the JavaScript engine for that pattern.  A global scan then collects
the non-overlapping matches in order. -/

/-- Characters admitted by the body class of the first two patterns:
every character except whitespace and < > " braces | backslash ^
backquote [ ]. -/
def urlBodyChar (c : Char) : Bool :=
  !(isWs c) && c != '<' && c != '>' && c != '\"' && c != lbraceCh &&
  c != rbraceCh && c != '|' && c != '\\' && c != '^' && c != backquoteCh &&
  c != '[' && c != ']'

/-- Pattern https?://[body]+ at the current position. -/
def p1MatchAt (_prev : Option Char) (l : List Char) :
    Option (List Char × List Char) :=
  let tryAfter : List Char → List Char → Option (List Char × List Char) :=
    fun pre rest =>
      let body := rest.takeWhile urlBodyChar
      if body.isEmpty then none
      else some (pre ++ body, rest.drop body.length)
  if listStartsWith l "https://".data then
    tryAfter "https://".data (l.drop 8)
  else if listStartsWith l "http://".data then
    tryAfter "http://".data (l.drop 7)
  else none

/-- Pattern www.[body]+ at the current position. -/
def p2MatchAt (_prev : Option Char) (l : List Char) :
    Option (List Char × List Char) :=
  if listStartsWith l "www.".data then
    let rest := l.drop 4
    let body := rest.takeWhile urlBodyChar
    if body.isEmpty then none
    else some ("www.".data ++ body, rest.drop body.length)
  else none

/-- Lengths a hostname label may take at this position, in the preference
order of the backtracking engine (longest optional part first), each
returning the consumed characters including the mandatory trailing dot. -/
def labelDotAt (l : List Char) (len : Nat) : Option (List Char × List Char) :=
  let seg := l.take len
  if seg.length = len ∧ 1 ≤ len ∧ len ≤ 63 then
    let okShape :=
      match seg with
      | [] => false
      | c0 :: rest0 =>
        if len = 1 then isAlnumCh c0
        else
          isAlnumCh c0 && (rest0.dropLast.all isLabelCh) &&
            (match rest0.getLast? with
             | some clast => isAlnumCh clast
             | none => false)
    if okShape then
      match l.drop len with
      | '.' :: r2 => some (seg ++ ['.'], r2)
      | _ => none
    else none
  else none

def labelChoices (l : List Char) : List (List Char × List Char) :=
  ((List.range 63).map (fun k => 63 - k)).filterMap (labelDotAt l)

/-- Greedy TLD of at least two letters followed by an optional /path of
non-whitespace characters. -/
def p3TldPath (l : List Char) : Option (List Char × List Char) :=
  let tld := l.takeWhile isAlphaCh
  if tld.length < 2 then none
  else
    let rest := l.drop tld.length
    match rest with
    | '/' :: r2 =>
      let p := r2.takeWhile (fun c => !isWs c)
      some (tld ++ '/' :: p, r2.drop p.length)
    | _ => some (tld, rest)

def firstSome {α : Type} : List (Option α) → Option α
  | [] => none
  | some a :: _ => some a
  | none :: rest => firstSome rest

/-- Backtracking match of (label.)+tld(/path)? — tries to extend the
group repetition before settling for the TLD, exactly like the regex
engine. -/
def p3Seq : Nat → List Char → Bool → Option (List Char × List Char)
  | 0, _, _ => none
  | n + 1, l, hasGroup =>
    let viaGroup := firstSome ((labelChoices l).map (fun pr =>
      (p3Seq n pr.2 true).map (fun m => (pr.1 ++ m.1, m.2))))
    match viaGroup with
    | some x => some x
    | none => if hasGroup then p3TldPath l else none

def p3Core (l : List Char) : Option (List Char × List Char) :=
  p3Seq (l.length + 1) l false

/-- Bare-domain pattern (?:^|s)(label.)+tld(/path)? — the alternation
consumes either nothing at the very start of the string or one whitespace
character, which then belongs to the match. -/
def p3MatchAt (prev : Option Char) (l : List Char) :
    Option (List Char × List Char) :=
  let viaStart := if prev.isNone then p3Core l else none
  match viaStart with
  | some x => some x
  | none =>
    match l with
    | c :: rest =>
      if isWs c then (p3Core rest).map (fun m => (c :: m.1, m.2)) else none
    | [] => none

/-- One group of 1-3 digits followed by a dot; a longer digit run cannot
be split because the character after any shorter cut is again a digit. -/
def ipGroupDot (l : List Char) : Option (List Char × List Char) :=
  let run := l.takeWhile isDigitCh
  if 1 ≤ run.length ∧ run.length ≤ 3 then
    match l.drop run.length with
    | '.' :: r2 => some (run ++ ['.'], r2)
    | _ => none
  else none

/-- IP address pattern with a word boundary before the first digit:
(digits{1,3}.){3}digits{1,3}(/path)?. -/
def p4MatchAt (prev : Option Char) (l : List Char) :
    Option (List Char × List Char) :=
  let boundary :=
    match l with
    | c :: _ =>
      isDigitCh c &&
        (match prev with
         | none => true
         | some p => !isWordCh p)
    | [] => false
  if boundary then
    match ipGroupDot l with
    | none => none
    | some (g1, r1) =>
      match ipGroupDot r1 with
      | none => none
      | some (g2, r2) =>
        match ipGroupDot r2 with
        | none => none
        | some (g3, r3) =>
          let run := r3.takeWhile isDigitCh
          if run.isEmpty then none
          else
            let kept := run.take 3
            let r4 := r3.drop kept.length
            match r4 with
            | '/' :: r5 =>
              let p := r5.takeWhile (fun c => !isWs c)
              some (g1 ++ g2 ++ g3 ++ kept ++ '/' :: p, r5.drop p.length)
            | _ => some (g1 ++ g2 ++ g3 ++ kept, r4)
  else none

/-- Pattern localhost(:digits+)?(/path)?. -/
def p5MatchAt (_prev : Option Char) (l : List Char) :
    Option (List Char × List Char) :=
  if listStartsWith l "localhost".data then
    let r1 := l.drop 9
    let portAndRest :
        List Char × List Char :=
      match r1 with
      | ':' :: r2 =>
        let run := r2.takeWhile isDigitCh
        if run.isEmpty then ([], r1)
        else (':' :: run, r2.drop run.length)
      | _ => ([], r1)
    let r3 := portAndRest.2
    match r3 with
    | '/' :: r4 =>
      let p := r4.takeWhile (fun c => !isWs c)
      some ("localhost".data ++ portAndRest.1 ++ '/' :: p, r4.drop p.length)
    | _ => some ("localhost".data ++ portAndRest.1, r3)
  else none

/-- Global scan of a pattern: collect non-overlapping matches left to
right, resuming after each match, tracking the character preceding the
current position for the boundary-sensitive patterns. -/
def gScan (matchAt : Option Char → List Char → Option (List Char × List Char)) :
    Nat → Option Char → List Char → List String
  | 0, _, _ => []
  | _ + 1, _, [] => []
  | n + 1, prev, l =>
    match matchAt prev l with
    | some (m, rest) =>
      strOfList m :: gScan matchAt n (m.getLast? <|> prev) rest
    | none =>
      match l with
      | [] => []
      | c :: rest => gScan matchAt n (some c) rest

def scanAll (matchAt : Option Char → List Char → Option (List Char × List Char))
    (s : String) : List String :=
  gScan matchAt (s.data.length + 1) none s.data

/-- Hostname of a parsed http(s) URL.  Models the WHATWG URL parsing done
by the Node URL class (an external platform collaborator, not repository
code) for the candidate shapes the extractor produces: an explicit
http/https scheme, optional userinfo, host up to the first colon, slash,
question mark or hash, lowercased; anything without an http(s) scheme or
with an empty host fails to parse. -/
def jsUrlHostname (u : String) : Option String :=
  let l := u.data
  let after : Option (List Char) :=
    if listStartsWith l "https://".data then some (l.drop 8)
    else if listStartsWith l "http://".data then some (l.drop 7)
    else none
  match after with
  | none => none
  | some rest =>
    let authority := rest.takeWhile (fun c => c != '/' && c != '?' && c != '#')
    let hostPort := (splitOnCharAux '@' [] authority).getLastD ""
    let host := hostPort.data.takeWhile (fun c => c != ':')
    if host.isEmpty then none
    else some (strOfList (host.map asciiToLower))

/-- Fallback regex of extractDomainFromUrl:
(?:https?://)?(?:www.)?([^/s]+), returning the first capture group. -/
def domainFallbackAt (l : List Char) : Option String :=
  let protoOpts : List (List Char) := ["https://".data, "http://".data, []]
  let wwwOpts : List (List Char) := ["www.".data, []]
  firstSome (protoOpts.map (fun pr =>
    if listStartsWith l pr then
      let l1 := l.drop pr.length
      firstSome (wwwOpts.map (fun w =>
        if listStartsWith l1 w then
          let l2 := l1.drop w.length
          let run := l2.takeWhile (fun c => c != '/' && !isWs c)
          if run.isEmpty then none else some (strOfList run)
        else none))
    else none))

def domainFallbackScan : Nat → List Char → Option String
  | 0, _ => none
  | _ + 1, [] => none
  | n + 1, l =>
    match domainFallbackAt l with
    | some d => some d
    | none =>
      match l with
      | [] => none
      | _ :: rest => domainFallbackScan n rest

/-- Embedding of extractDomainFromUrl (scraper.ts lines 105-114). -/
def extractDomainFromUrl (url : String) : String :=
  match jsUrlHostname url with
  | some h => h
  | none =>
    match domainFallbackScan (url.data.length + 1) url.data with
    | some d => d
    | none => url

def trailingPunct (c : Char) : Bool :=
  c == '.' || c == ',' || c == ';' || c == '!' || c == '?'

/-- Model of the replace of the trailing [.,;!?]+$ run. -/
def stripTrailingPunct (s : String) : String :=
  strOfList (s.data.reverse.dropWhile trailingPunct).reverse

def cleanUrl (u : String) : String :=
  let c1 := jsTrim u
  let c2 := if startsWithStr c1 "http" then c1 else "https://" ++ c1
  jsTrim (stripTrailingPunct c2)

def keepUrl (u : String) : Bool :=
  match jsUrlHostname u with
  | none => false
  | some h =>
    !(h == "example.com" || h == "localhost" || h.data.length < 3)

/-- Embedding of extractUrlsFromText (scraper.ts lines 116-167). -/
def extractUrlsFromText (text : String) : List String :=
  let m1 := scanAll p1MatchAt text
  let m2 := scanAll p2MatchAt text
  let m3 := scanAll p3MatchAt text
  let m4 := scanAll p4MatchAt text
  let m5 := scanAll p5MatchAt text
  let allUrls := m1 ++ m2 ++ m3 ++ m4 ++ m5
  let cleaned := allUrls.map cleanUrl
  dedupFirst (cleaned.filter keepUrl)

/-! ### Storage — src/server/storage.ts, class MemStorage.

Records live in insertion-ordered lists (the iteration order of the
JavaScript Maps keyed by ever-increasing ids).  Timestamps carry no
information any claim depends on and are modelled as Option Unit markers
(set versus null). -/

structure TopicRec where
  id : Nat
  name : String
  description : Option String
  deriving DecidableEq

structure PromptRec where
  id : Nat
  text : String
  topicId : Option Nat
  deriving DecidableEq

structure ResponseRec where
  id : Nat
  promptId : Nat
  text : String
  brandMentioned : Option Bool
  competitorsMentioned : Option (List String)
  sources : Option (List String)
  deriving DecidableEq

structure CompetitorRec where
  id : Nat
  name : String
  category : Option String
  mentionCount : Option Int
  lastMentioned : Option Unit
  deriving DecidableEq

structure SourceRec where
  id : Nat
  domain : String
  url : String
  title : Option String
  citationCount : Option Int
  lastCited : Option Unit
  deriving DecidableEq

structure AnalyticsRec where
  id : Nat
  totalPrompts : Option Int
  brandMentionRate : Option ℚ
  topCompetitor : Option String
  totalSources : Option Int
  totalDomains : Option Int
  deriving DecidableEq

structure Storage where
  topics : List TopicRec
  prompts : List PromptRec
  responses : List ResponseRec
  competitors : List CompetitorRec
  sources : List SourceRec
  analytics : List AnalyticsRec
  nextTopicId : Nat
  nextPromptId : Nat
  nextResponseId : Nat
  nextCompetitorId : Nat
  nextSourceId : Nat
  nextAnalyticsId : Nat
  deriving DecidableEq

def emptyStorage : Storage :=
  { topics := [], prompts := [], responses := [], competitors := [],
    sources := [], analytics := [], nextTopicId := 1, nextPromptId := 1,
    nextResponseId := 1, nextCompetitorId := 1, nextSourceId := 1,
    nextAnalyticsId := 1 }

/-- JavaScript "x || null" on a nullable number: 0 (and NaN) collapse to
null. -/
def orNullInt : Option Int → Option Int
  | some v => if v = 0 then none else some v
  | none => none

/-- JavaScript "x || null" on a nullable string: the empty string
collapses to null. -/
def orNullStr : Option String → Option String
  | some s => if s = "" then none else some s
  | none => none

/-- JavaScript "x || null" on a nullable rational. -/
def orNullRat : Option ℚ → Option ℚ
  | some v => if v = 0 then none else some v
  | none => none

structure InsertTopicData where
  name : String
  description : Option String

structure InsertPromptData where
  text : String
  topicId : Option Nat
  deriving DecidableEq

structure InsertResponseData where
  promptId : Nat
  text : String
  brandMentioned : Bool
  competitorsMentioned : List String
  sources : List String

structure InsertCompetitorData where
  name : String
  category : Option String
  mentionCount : Option Int

structure InsertSourceData where
  domain : String
  url : String
  title : Option String
  citationCount : Option Int

structure InsertAnalyticsData where
  totalPrompts : Int
  brandMentionRate : ℚ
  topCompetitor : Option String
  totalSources : Int
  totalDomains : Int

def createTopic (t : InsertTopicData) (st : Storage) : TopicRec × Storage :=
  let rec0 : TopicRec :=
    { id := st.nextTopicId, name := t.name, description := t.description }
  (rec0, { st with topics := st.topics ++ [rec0],
                   nextTopicId := st.nextTopicId + 1 })

def createPrompt (p : InsertPromptData) (st : Storage) : PromptRec × Storage :=
  let rec0 : PromptRec :=
    { id := st.nextPromptId, text := p.text, topicId := p.topicId }
  (rec0, { st with prompts := st.prompts ++ [rec0],
                   nextPromptId := st.nextPromptId + 1 })

def createResponse (r : InsertResponseData) (st : Storage) :
    ResponseRec × Storage :=
  let rec0 : ResponseRec :=
    { id := st.nextResponseId, promptId := r.promptId, text := r.text,
      brandMentioned := some r.brandMentioned,
      competitorsMentioned := some r.competitorsMentioned,
      sources := some r.sources }
  (rec0, { st with responses := st.responses ++ [rec0],
                   nextResponseId := st.nextResponseId + 1 })

/-- Embedding of MemStorage.createCompetitor (storage.ts lines 216-226):
category and mentionCount go through the falsy coercion, so a mention
count of 0 is stored as null. -/
def createCompetitor (c : InsertCompetitorData) (st : Storage) :
    CompetitorRec × Storage :=
  let rec0 : CompetitorRec :=
    { id := st.nextCompetitorId, name := c.name,
      category := orNullStr c.category,
      mentionCount := orNullInt c.mentionCount, lastMentioned := none }
  (rec0, { st with competitors := st.competitors ++ [rec0],
                   nextCompetitorId := st.nextCompetitorId + 1 })

/-- Embedding of MemStorage.createSource (storage.ts lines 245-256). -/
def createSource (s : InsertSourceData) (st : Storage) :
    SourceRec × Storage :=
  let rec0 : SourceRec :=
    { id := st.nextSourceId, domain := s.domain, url := s.url,
      title := orNullStr s.title,
      citationCount := orNullInt s.citationCount, lastCited := some () }
  (rec0, { st with sources := st.sources ++ [rec0],
                   nextSourceId := st.nextSourceId + 1 })

def getCompetitorByName (name : String) (st : Storage) :
    Option CompetitorRec :=
  st.competitors.find? (fun c => c.name == name)

def getSourceByDomain (domain : String) (st : Storage) : Option SourceRec :=
  st.sources.find? (fun s => s.domain == domain)

def setFirstCompetitor (name : String) (g : CompetitorRec → CompetitorRec) :
    List CompetitorRec → List CompetitorRec
  | [] => []
  | c :: cs =>
    if c.name == name then g c :: cs
    else c :: setFirstCompetitor name g cs

def setFirstSource (domain : String) (g : SourceRec → SourceRec) :
    List SourceRec → List SourceRec
  | [] => []
  | s :: ss =>
    if s.domain == domain then g s :: ss
    else s :: setFirstSource domain g ss

/-- Embedding of MemStorage.updateCompetitorMentionCount (storage.ts lines
232-239): the update is skipped entirely when the competitor is absent or
its stored count is null. -/
def updateCompetitorMentionCount (name : String) (inc : Int) (st : Storage) :
    Storage :=
  match getCompetitorByName name st with
  | none => st
  | some c =>
    match c.mentionCount with
    | none => st
    | some v =>
      let g : CompetitorRec → CompetitorRec := fun d =>
        { d with mentionCount := some (v + inc), lastMentioned := some () }
      { st with competitors := setFirstCompetitor name g st.competitors }

/-- Embedding of MemStorage.updateSourceCitationCount (storage.ts lines
262-269). -/
def updateSourceCitationCount (domain : String) (inc : Int) (st : Storage) :
    Storage :=
  match getSourceByDomain domain st with
  | none => st
  | some s =>
    match s.citationCount with
    | none => st
    | some v =>
      let g : SourceRec → SourceRec := fun d =>
        { d with citationCount := some (v + inc), lastCited := some () }
      { st with sources := setFirstSource domain g st.sources }

def clearAllPrompts (st : Storage) : Storage :=
  { st with prompts := [], nextPromptId := 1 }

def clearAllResponses (st : Storage) : Storage :=
  { st with responses := [], nextResponseId := 1 }

def clearAllCompetitors (st : Storage) : Storage :=
  { st with competitors := [], nextCompetitorId := 1 }

def createAnalytics (a : InsertAnalyticsData) (st : Storage) :
    AnalyticsRec × Storage :=
  let rec0 : AnalyticsRec :=
    { id := st.nextAnalyticsId,
      totalPrompts := orNullInt (some a.totalPrompts),
      brandMentionRate := orNullRat (some a.brandMentionRate),
      topCompetitor := orNullStr a.topCompetitor,
      totalSources := orNullInt (some a.totalSources),
      totalDomains := orNullInt (some a.totalDomains) }
  (rec0, { st with analytics := st.analytics ++ [rec0],
                   nextAnalyticsId := st.nextAnalyticsId + 1 })

/-! ### Prompt generation — src/server/services/openai.ts,
generatePromptsForTopic (lines 183-358).

The OpenAI chat call of each attempt is an oracle: stream n is the
trimmed-nullable message content of attempt n, with none standing for a
thrown error or null content.  Everything that happens to a returned
candidate — quote stripping, escaped-quote removal, polite-suffix
removal, capitalization, question-mark insertion, word-count acceptance —
is translated from the source.  The aspect list only varies the text sent
to the model, so it does not appear in the embedding. -/

def isQuoteCh (c : Char) : Bool :=
  c == '\"' || c == squoteCh || c == backquoteCh ||
  c == Char.ofNat 0x201C || c == Char.ofNat 0x201D ||
  c == Char.ofNat 0x2018 || c == Char.ofNat 0x2019 ||
  c == Char.ofNat 0x201E || c == Char.ofNat 0x201A || c == Char.ofNat 0x201B

/-- Global replace of a leading and of a trailing run of quote
characters. -/
def stripQuoteRuns (l : List Char) : List Char :=
  ((l.dropWhile isQuoteCh).reverse.dropWhile isQuoteCh).reverse

/-- Global removal of the two-character sequences backslash-doublequote
and backslash-singlequote. -/
def removeEscapedQuotes : Nat → List Char → List Char
  | 0, l => l
  | _ + 1, [] => []
  | n + 1, c :: rest =>
    if c == '\\' then
      match rest with
      | q :: r2 =>
        if q == '\"' || q == squoteCh then removeEscapedQuotes n r2
        else c :: removeEscapedQuotes n rest
      | [] => [c]
    else c :: removeEscapedQuotes n rest

def politeWords : List String := ["please", "exactly", "specifically"]

/-- Case-insensitive removal of a trailing whitespace run followed by
please, exactly or specifically. -/
def stripPoliteSuffix (l : List Char) : List Char :=
  let tryWord : String → Option (List Char) := fun w =>
    let wl := w.data
    if wl.length ≤ l.length then
      let pre := l.take (l.length - wl.length)
      let suf := l.drop (l.length - wl.length)
      let endsWsPre : Bool :=
        match pre.getLast? with
        | some c => isWs c
        | none => false
      if suf.map asciiToLower == wl && endsWsPre then
        some (pre.reverse.dropWhile isWs).reverse
      else none
    else none
  match firstSome (politeWords.map tryWord) with
  | some res => res
  | none => l

/-- While the string starts or ends with a quote character, strip one
from each end and trim. -/
def stripQuoteLoop : Nat → List Char → List Char
  | 0, l => l
  | n + 1, l =>
    let startsQ := match l.head? with | some c => isQuoteCh c | none => false
    let l1 := if startsQ then l.tail else l
    let endsQ1 := match l1.getLast? with | some c => isQuoteCh c | none => false
    let endsQ := match l.getLast? with | some c => isQuoteCh c | none => false
    if startsQ || endsQ then
      stripQuoteLoop n (jsTrimL (if endsQ1 then l1.dropLast else l1))
    else l

def capitalizeFirst : List Char → List Char
  | [] => []
  | c :: r => asciiToUpper c :: r

def questionWords : List String :=
  ["how", "what", "when", "where", "why", "which", "can", "should", "do",
   "does", "is", "are", "will"]

def startsWithQuestionWord (l : List Char) : Bool :=
  questionWords.any (fun w => listStartsWith (l.map asciiToLower) w.data)

/-- Cleanup pipeline for one non-empty trimmed candidate (openai.ts lines
277-298). -/
def cleanCandidate (t : String) : String :=
  let s1 := stripQuoteRuns t.data
  let s2 := removeEscapedQuotes s1.length s1
  let s3 := stripPoliteSuffix s2
  let s4 := jsTrimL s3
  let s5 := stripQuoteLoop (s4.length + 1) s4
  let s6 :=
    if s5.length > 0 then
      let s6a := capitalizeFirst s5
      if startsWithQuestionWord s6a ∧ s6a.getLast? ≠ some '?' then
        s6a ++ ['?']
      else s6a
    else s5
  strOfList s6

/-- Acceptance test of a cleaned candidate: 3 to 12 space-separated
segments and at least one space (openai.ts line 301). -/
def acceptCandidate (p : String) : Bool :=
  let parts := splitOnChar ' ' p
  parts.length ≤ 12 && 3 ≤ parts.length && containsStr p " "

def gptAttempt (count : Nat) (acc : List String) (rawOpt : Option String) :
    List String :=
  let _ := count
  match rawOpt with
  | none => acc
  | some raw =>
    let t := jsTrim raw
    if t == "" then acc
    else
      let p := cleanCandidate t
      if acceptCandidate p then acc ++ [p] else acc

def genPromptLoop (stream : Nat → Option String) (count : Nat) :
    Nat → Nat → List String → List String
  | 0, _, acc => acc
  | n + 1, idx, acc =>
    if acc.length < count then
      genPromptLoop stream count n (idx + 1) (gptAttempt count acc (stream idx))
    else acc

def fallbackTemplates (tn : String) : List String :=
  let tl := strToLower tn
  ["Dealing with " ++ tl ++ " complexity",
   "Need help optimizing " ++ tl ++ " setup",
   "Struggling with " ++ tl ++ " performance issues",
   "How to improve " ++ tl ++ " reliability?",
   "Tired of " ++ tl ++ " maintenance overhead",
   "Best practices for " ++ tl ++ " implementation",
   "Looking to simplify " ++ tl ++ " workflow",
   "Ways to reduce " ++ tl ++ " costs",
   "Automating " ++ tl ++ " processes better",
   tn ++ " security considerations",
   "Monitoring and tracking for " ++ tl,
   "Scaling " ++ tl ++ " for growth",
   "Migration strategies for " ++ tl,
   "Backup solutions for " ++ tl,
   "Team collaboration with " ++ tl,
   "Testing strategies for " ++ tl,
   "Documentation needs for " ++ tl,
   "Compliance requirements with " ++ tl,
   "Integration challenges with " ++ tl,
   "Performance comparison for " ++ tl]

/-- Fill from the fixed templates, stopping at count and skipping exact
duplicates (openai.ts lines 337-344). -/
def addTemplates (count : Nat) : List String → List String → List String
  | [], acc => acc
  | t :: ts, acc =>
    if count ≤ acc.length then acc
    else if acc.contains t then addTemplates count ts acc
    else addTemplates count ts (acc ++ [t])

/-- Numbered filler prompts topicName question i+1 for i from the current
length to count (openai.ts lines 347-352). -/
def numberedFillers (tn : String) (from0 count : Nat) : List String :=
  (List.range (count - from0)).map
    (fun j => tn ++ " question " ++ toString (from0 + j + 1))

/-- Embedding of generatePromptsForTopic.  The topicDescription parameter
is accepted and ignored, as in the source, where it only feeds the text
sent to the model. -/
def generatePromptsForTopic (topicName topicDescription : String)
    (count : Nat) (stream : Nat → Option String) : List String :=
  let _ := topicDescription
  let gen := genPromptLoop stream count (count * 5) 0 []
  let final :=
    if gen.length < count then
      let p1 := addTemplates count (fallbackTemplates topicName) gen
      if p1.length < count then p1 ++ numberedFillers topicName p1.length count
      else p1
    else gen
  final.take count

/-! ### Diversity filter — src/server/services/prompt-generator.ts.

Word sets are JavaScript Sets of the lowercased whitespace-split words of
length above 2, modelled as Finsets; the similarity of two prompts is
intersection over union times 100, a rational, with the 0/0 case (NaN in
JavaScript, which compares false against everything) modelled as none. -/

def promptWordFinset (s : String) : Finset String :=
  ((splitWs (strToLower s)).filter (fun w => w.length > 2)).toFinset

def wordOverlapSim (a b : String) : Option ℚ :=
  let A := promptWordFinset a
  let B := promptWordFinset b
  let u := (A ∪ B).card
  if u = 0 then none
  else some ((((A ∩ B).card : ℚ) / (u : ℚ)) * 100)

def simExceeds : Option ℚ → ℚ → Bool
  | none, _ => false
  | some q, x => decide (x < q)

/-- Embedding of isDiverse (prompt-generator.ts lines 86-106): true on an
empty pool, false as soon as the overlap with some pool member exceeds
100 - threshold. -/
def isDiverse (newPrompt : String) (pool : List String) (threshold : ℚ) :
    Bool :=
  if pool.isEmpty then true
  else pool.all (fun p => !simExceeds (wordOverlapSim newPrompt p)
    (100 - threshold))

def gfContexts : List String :=
  ["startup with limited budget", "enterprise application",
   "personal project", "high-traffic application", "development team",
   "solo developer"]

def gfQuestionTypes : List String :=
  ["I\x27m struggling with", "What are the pros and cons of",
   "Can you compare", "I need help choosing between",
   "What would you recommend for", "How do I troubleshoot",
   "What\x27s the difference between", "Is there a better alternative to"]

/-- Cyclic indexing as JavaScript performs it; on an empty list the index
is NaN and the lookup yields undefined, which the template renders as the
string undefined. -/
def jsIndexCyc (l : List String) (i : Nat) : String :=
  match l with
  | [] => "undefined"
  | _ => l.getD (i % l.length) ""

def generateFallbackPrompts (tn : String) (competitors : List String) :
    List String :=
  (List.range 5).map (fun i =>
    jsIndexCyc gfQuestionTypes i ++ " " ++ tn ++ " solutions for a " ++
    jsIndexCyc gfContexts i ++ "? I\x27ve heard about " ++
    jsIndexCyc competitors i ++ " but want to explore options.")

def gdAttempt (threshold : ℚ) (acc : List String) (rawOpt : Option String) :
    List String :=
  match rawOpt with
  | none => acc
  | some raw =>
    let t := jsTrim raw
    if t == "" then acc
    else if acc.isEmpty || isDiverse t acc threshold then acc ++ [t]
    else acc

def gdLoop (stream : Nat → Option String) (count : Nat) (threshold : ℚ) :
    Nat → Nat → List String → List String
  | 0, _, acc => acc
  | n + 1, idx, acc =>
    if acc.length < count then
      gdLoop stream count threshold n (idx + 1) (gdAttempt threshold acc (stream idx))
    else acc

def addDiverseFallbacks (count : Nat) (threshold : ℚ) :
    List String → List String → List String
  | [], acc => acc
  | f :: fs, acc =>
    if count ≤ acc.length then acc
    else if isDiverse f acc threshold then
      addDiverseFallbacks count threshold fs (acc ++ [f])
    else addDiverseFallbacks count threshold fs acc

/-- Embedding of generateDiversePrompts (prompt-generator.ts lines 5-84). -/
def generateDiversePrompts (topicName : String) (competitors : List String)
    (promptsPerTopic : Nat) (diversityThreshold : ℚ)
    (stream : Nat → Option String) : List String :=
  let base := gdLoop stream promptsPerTopic diversityThreshold
    (promptsPerTopic * 3) 0 []
  let final :=
    if base.length < promptsPerTopic then
      let p1 := addDiverseFallbacks promptsPerTopic diversityThreshold
        (generateFallbackPrompts topicName competitors) base
      if p1.isEmpty then
        p1 ++ ["Tell me about " ++ topicName ++ " options available today."]
      else p1
    else base
  final.take promptsPerTopic

/-! ### Analysis orchestrator — src/server/services/analyzer.ts.

runFullAnalysis is embedded as a pure transition on a system state
(storage, shared progress record, single-flight flag).  Every external
effect is an oracle input:

* outcomes i — the result of the analyzePromptResponse adapter call of
  loop iteration i (ok, or error () for a throw after internal retries),
  together with the Math.random draw and the extractCompetitorsFromText
  result that the fallback path would consume;
* categorize — the category string the categorizeCompetitor helper
  produces for a new name (its 15-second-timeout LLM call together with
  its own Technology fallback always yields some string);
* genStream t — the candidate stream that generatePromptsForTopic
  consumes for the topic with index t in the fresh-analysis branch.

Cancellation (stopCurrentAnalysis flipping the process-wide flag) is a
schedule: cancelAt = some k means the flag is observed cleared at the
top-of-iteration check of every iteration with index at least k, that is,
after exactly k prompts have completed.  JavaScript runs the body between
two awaits atomically, so the guard check-and-set at entry is atomic and
a concurrent start is exactly an invocation on a state whose flag is
true.  The module-level targetPrompts variable is written but never read
in the source and is omitted. -/

inductive RunStatus where
  | initializing
  | scraping
  | generatingPrompts
  | testingPrompts
  | analyzing
  | complete
  | error
  deriving DecidableEq

structure AnalysisProgress where
  status : RunStatus
  message : String
  progress : ℚ
  totalPrompts : Option Nat
  completedPrompts : Option Nat
  deriving DecidableEq

/-- Progress record installed by resetProgress (analyzer.ts lines 75-84). -/
def resetProgressRec : AnalysisProgress :=
  { status := .initializing, message := "Starting analysis...",
    progress := 0, totalPrompts := some 0, completedPrompts := some 0 }

structure AnalysisResult where
  response : String
  brandMentioned : Bool
  competitors : List String
  sources : List String
  deriving DecidableEq

structure PromptOutcome where
  adapter : Except Unit AnalysisResult
  fallbackBrandMentioned : Bool
  fallbackCompetitors : Except Unit (List String)

structure Settings where
  promptsPerTopic : Nat
  numberOfTopics : Nat

structure SavedPrompt where
  text : String
  topicId : Option Nat
  deriving DecidableEq

structure Oracle where
  outcomes : Nat → PromptOutcome
  categorize : String → String
  genStream : Nat → Nat → Option String

structure SysState where
  store : Storage
  progress : AnalysisProgress
  running : Bool
  deriving DecidableEq

/-- Fixed generic source list of the fallback analysis (analyzer.ts lines
300-309). -/
def fallbackSources : List String :=
  ["https://stackoverflow.com/questions/deployment",
   "https://docs.aws.amazon.com",
   "https://github.com/features/actions",
   "https://docs.github.com/en/actions",
   "https://vercel.com/docs",
   "https://netlify.com/docs",
   "https://docs.docker.com",
   "https://kubernetes.io/docs"]

/-- Synthetic analysis substituted when the adapter throws (analyzer.ts
lines 270-311): competitors from the best-effort extraction (empty when
that also fails), a templated response text that references the raw
competitor list, the random brand flag, and the fixed source list.  The
competitor list attached to the result is deduplicated. -/
def fallbackAnalysis (promptText : String) (out : PromptOutcome) :
    AnalysisResult :=
  let competitors :=
    match out.fallbackCompetitors with
    | .ok cs => cs
    | .error _ => []
  { response := "Based on your " ++ strToLower promptText ++
      ", I\x27d recommend considering " ++ joinComma competitors ++
      " for your deployment needs." ++
      (if out.fallbackBrandMentioned then
        " There are also other good options for simple deployments."
      else ""),
    brandMentioned := out.fallbackBrandMentioned,
    competitors := dedupFirst competitors,
    sources := fallbackSources }

/-- Analysis used for iteration i: the adapter result when the call
succeeds, the synthetic fallback when it throws. -/
def analysisFor (out : PromptOutcome) (promptText : String) :
    AnalysisResult :=
  match out.adapter with
  | .ok a => a
  | .error _ => fallbackAnalysis promptText out

/-- Embedding of BrandAnalyzer.categorizeCompetitor (analyzer.ts lines
537-591): an existing truthy category is sticky; otherwise the oracle
supplies the string the LLM call or its Technology fallback returns. -/
def categorizeCompetitor (oracle : Oracle) (name : String) (st : Storage) :
    String :=
  match getCompetitorByName name st with
  | some c =>
    match c.category with
    | some cat => if cat == "" then oracle.categorize name else cat
    | none => oracle.categorize name
  | none => oracle.categorize name

/-- Per-competitor registration loop (analyzer.ts lines 317-334). -/
def processCompetitors (oracle : Oracle) : List String → Storage → Storage
  | [], st => st
  | name :: rest, st =>
    let st1 :=
      match getCompetitorByName name st with
      | some _ => updateCompetitorMentionCount name 1 st
      | none =>
        let cat := categorizeCompetitor oracle name st
        let st0 := (createCompetitor
          { name := name, category := some cat, mentionCount := some 0 } st).2
        updateCompetitorMentionCount name 1 st0
    processCompetitors oracle rest st1

/-- Candidate URLs of one prompt: response text extraction, the structured
adapter sources, and the prompt text itself, deduplicated (analyzer.ts
lines 339-345). -/
def allUrlsFor (analysis : AnalysisResult) (promptText : String) :
    List String :=
  dedupFirst (extractUrlsFromText analysis.response ++ analysis.sources ++
    extractUrlsFromText promptText)

def upsertDomain (d u : String) :
    List (String × List String) → List (String × List String)
  | [] => [(d, [u])]
  | (k, us) :: rest =>
    if k == d then (k, us ++ [u]) :: rest
    else (k, us) :: upsertDomain d u rest

/-- Grouping of the surviving URLs by domain (analyzer.ts lines 350-369):
a left fold over the URLs in order, so domains appear in first-seen order
and every later URL of a known domain is appended to that entry, exactly
as the JavaScript Map is populated.  Empty, short and placeholder domains
are skipped. -/
def groupUrlsByDomainGo (acc : List (String × List String)) :
    List String → List (String × List String)
  | [] => acc
  | u :: rest =>
    let d := extractDomainFromUrl u
    if d == "" || d.data.length < 3 then groupUrlsByDomainGo acc rest
    else if d == "example.com" || d == "localhost" then
      groupUrlsByDomainGo acc rest
    else groupUrlsByDomainGo (upsertDomain d u acc) rest

def groupedDomains (urls : List String) : List (String × List String) :=
  groupUrlsByDomainGo [] urls

def docLikeUrl (u : String) : Bool :=
  containsStr u "/docs" || containsStr u "/api" ||
  containsStr u "/developer" || containsStr u "/guide" ||
  containsStr u "/tutorial"

/-- Representative URL of a domain group (analyzer.ts lines 377-383). -/
def primaryUrlOf (urls : List String) : String :=
  match urls.find? docLikeUrl with
  | some u => u
  | none => urls.headD ""

/-- Embedding of BrandAnalyzer.generateSourceTitle (analyzer.ts lines
460-535). -/
def generateSourceTitle (domain url : String) : String :=
  let domainParts := splitOnChar '.' domain
  let mainDomain := domainParts.headD ""
  if containsStr url "/docs" then mainDomain ++ " Documentation"
  else if containsStr url "/api" then mainDomain ++ " API Documentation"
  else if containsStr url "/developer" then mainDomain ++ " Developer Portal"
  else if containsStr url "/guide" || containsStr url "/tutorial" then
    mainDomain ++ " Guides & Tutorials"
  else if containsStr domain "github.com" then "GitHub Repository"
  else if containsStr domain "stackoverflow.com" then
    "Stack Overflow Discussion"
  else if containsStr domain "medium.com" then "Medium Article"
  else if containsStr domain "dev.to" then "Dev.to Article"
  else if containsStr domain "reddit.com" then "Reddit Discussion"
  else if containsStr domain "youtube.com" then "YouTube Video"
  else if containsStr domain "twitter.com" || containsStr domain "x.com" then
    "Social Media Post"
  else if containsStr domain "linkedin.com" then "LinkedIn Article"
  else if containsStr domain "hackernews.com" ||
      containsStr domain "news.ycombinator.com" then
    "Hacker News Discussion"
  else if containsStr domain "discord.com" || containsStr domain "discord.gg"
      then "Discord Community"
  else if containsStr domain "slack.com" then "Slack Community"
  else if containsStr domain "substack.com" then "Substack Newsletter"
  else if containsStr domain "hashnode.dev" then "Hashnode Article"
  else if containsStr domain "css-tricks.com" then "CSS-Tricks Article"
  else if containsStr domain "smashingmagazine.com" then
    "Smashing Magazine Article"
  else if containsStr domain "sitepoint.com" then "SitePoint Article"
  else if containsStr domain "toptal.com" then "Toptal Article"
  else if containsStr domain "freecodecamp.org" then "freeCodeCamp Resource"
  else if containsStr domain "mozilla.org" then "Mozilla Developer Network"
  else if containsStr domain "web.dev" then "Web.dev Article"
  else
    let tld := domainParts.getLastD ""
    if tld == "org" then mainDomain ++ " Organization"
    else if tld == "edu" then mainDomain ++ " Educational Resource"
    else if tld == "gov" then mainDomain ++ " Government Resource"
    else if tld == "io" then mainDomain ++ " Platform"
    else if tld == "app" then mainDomain ++ " Application"
    else if tld == "dev" then mainDomain ++ " Developer Resource"
    else mainDomain ++ " Website"

/-- Per-domain source registration (analyzer.ts lines 372-402). -/
def processDomainGroups : List (String × List String) → Storage → Storage
  | [], st => st
  | (d, urls) :: rest, st =>
    let primaryUrl := primaryUrlOf urls
    let st1 :=
      match getSourceByDomain d st with
      | some _ => updateSourceCitationCount d 1 st
      | none =>
        let title := generateSourceTitle d primaryUrl
        let st0 := (createSource
          { domain := d, url := primaryUrl, title := some title,
            citationCount := some 0 } st).2
        updateSourceCitationCount d 1 st0
    processDomainGroups rest st1

def processSources (analysis : AnalysisResult) (promptText : String)
    (st : Storage) : Storage :=
  processDomainGroups (groupedDomains (allUrlsFor analysis promptText)) st

/-- Loop-progress record written after an iteration (analyzer.ts lines
420-426): it assigns all five fields. -/
def loopProgress (completed total : Nat) : AnalysisProgress :=
  { status := .testingPrompts,
    message := "Testing prompts with ChatGPT... (" ++ toString completed ++
      "/" ++ toString total ++ ")",
    progress := 30 + ((completed : ℚ) / (total : ℚ)) * 50,
    totalPrompts := some total, completedPrompts := some completed }

/-- Body of one loop iteration after the cancellation check (analyzer.ts
lines 244-426): create the prompt record, obtain or synthesize the
analysis, register competitors and sources, persist the response, then
write the progress snapshot.  No step of the embedded body can throw, so
the per-prompt catch is unreachable and completedCount always advances. -/
def processPrompt (oracle : Oracle) (i total completed : Nat)
    (p : InsertPromptData) (st : Storage) : Storage × AnalysisProgress × Nat :=
  let pr := createPrompt p st
  let analysis := analysisFor (oracle.outcomes i) p.text
  let st2 := processCompetitors oracle analysis.competitors pr.2
  let st3 := processSources analysis p.text st2
  let st4 := (createResponse
    { promptId := pr.1.id, text := analysis.response,
      brandMentioned := analysis.brandMentioned,
      competitorsMentioned := analysis.competitors,
      sources := analysis.sources } st3).2
  (st4, loopProgress (completed + 1) total, completed + 1)

def cancelObserved (cancelAt : Option Nat) (i : Nat) : Bool :=
  match cancelAt with
  | some k => decide (k ≤ i)
  | none => false

structure LoopResult where
  store : Storage
  progress : AnalysisProgress
  cancelled : Bool
  completed : Nat
  deriving DecidableEq

/-- Cancellation merge (analyzer.ts lines 236-240): status, message and
progress are overwritten, the prompt counters of the previous snapshot
survive the spread. -/
def cancelMerge (prog : AnalysisProgress) : AnalysisProgress :=
  { prog with status := .error, message := "Analysis cancelled by user",
              progress := 0 }

/-- Sequential per-prompt loop (analyzer.ts lines 232-427). -/
def promptLoop (oracle : Oracle) (cancelAt : Option Nat) (total : Nat) :
    Nat → List InsertPromptData → Nat → Storage → AnalysisProgress →
    LoopResult
  | i, ps, completed, st, prog =>
    match ps with
    | [] =>
      { store := st, progress := prog, cancelled := false,
        completed := completed }
    | p :: rest =>
      if cancelObserved cancelAt i then
        { store := st, progress := cancelMerge prog, cancelled := true,
          completed := completed }
      else
        let step := processPrompt oracle i total completed p st
        promptLoop oracle cancelAt total (i + 1) rest step.2.2 step.1 step.2.1

/-- Coercion applied to saved prompts (analyzer.ts line 167): a topicId of
0 is collapsed to null by the falsy-or. -/
def savedTopicId : Option Nat → Option Nat
  | some 0 => none
  | x => x

/-- Adoption of one saved prompt (analyzer.ts line 167). -/
def savedToInsert (sp : SavedPrompt) : InsertPromptData :=
  { text := sp.text, topicId := savedTopicId sp.topicId }

/-- Adoption of one stored prompt (analyzer.ts line 177). -/
def promptToInsert (p : PromptRec) : InsertPromptData :=
  { text := p.text, topicId := p.topicId }

/-- Topics generateTopicsFromContent always returns (scraper.ts lines
49-83); the scraped content is ignored by that function. -/
def generatedTopics : List InsertTopicData :=
  [{ name := "Technology Stack",
     description := some "Analysis of the technology stack and development tools used" },
   { name := "Market Position",
     description := some "Understanding the brand\x27s position in the market and competitive landscape" },
   { name := "Service Offerings",
     description := some "Analysis of the services and products offered by the brand" },
   { name := "Developer Experience",
     description := some "Evaluation of developer tools, documentation, and ease of use" },
   { name := "Infrastructure & Scalability",
     description := some "Assessment of infrastructure capabilities and scaling solutions" },
   { name := "Integration Capabilities",
     description := some "Analysis of API offerings and integration possibilities" },
   { name := "Performance & Reliability",
     description := some "Evaluation of performance metrics and reliability features" }]

/-- Prompts-per-topic setting with the falsy-or default of 20 (analyzer.ts
line 206). -/
def promptsPerTopicOf : Option Settings → Nat
  | some s => if s.promptsPerTopic = 0 then 20 else s.promptsPerTopic
  | none => 20

/-- Fresh-analysis branch (analyzer.ts lines 196-215): find or create each
generated topic, then request prompts for it. -/
def freshTopicsLoop (oracle : Oracle) (settings : Option Settings) :
    Nat → List InsertTopicData → Storage → List InsertPromptData →
    Storage × List InsertPromptData
  | _, [], st, acc => (st, acc)
  | tIdx, t :: rest, st, acc =>
    let found := st.topics.find? (fun r => r.name == t.name)
    let pr : TopicRec × Storage :=
      match found with
      | some r => (r, st)
      | none => createTopic t st
    let texts := generatePromptsForTopic t.name
      (pr.1.description.getD "") (promptsPerTopicOf settings)
      (oracle.genStream tIdx)
    let newPrompts := texts.map
      (fun txt => ({ text := txt, topicId := some pr.1.id } : InsertPromptData))
    freshTopicsLoop oracle settings (tIdx + 1) rest pr.2 (acc ++ newPrompts)

/-- Prompt sourcing phase of runFullAnalysis (analyzer.ts lines 115-216):
the saved-prompts branch clears prompts, responses and competitors (the
source does so twice, once in each of its two savedPrompts blocks) and
never touches sources; the existing-prompts branch clears nothing; the
fresh branch generates topics and prompts. -/
def setupStorage (useExistingPrompts : Bool) (saved : List SavedPrompt)
    (settings : Option Settings) (oracle : Oracle) (st : Storage) :
    Storage × List InsertPromptData :=
  match saved with
  | _ :: _ =>
    let st1 := clearAllCompetitors (clearAllResponses (clearAllPrompts st))
    let st2 := clearAllCompetitors (clearAllResponses (clearAllPrompts st1))
    (st2, saved.map savedToInsert)
  | [] =>
    if useExistingPrompts then
      (st, st.prompts.map promptToInsert)
    else
      freshTopicsLoop oracle settings 0 generatedTopics st []

/-- First maximal element under mentionCount-or-0, the head of the stable
descending sort in generateAnalytics. -/
def pickTopCompetitor : List CompetitorRec → Option CompetitorRec
  | [] => none
  | c :: rest =>
    match pickTopCompetitor rest with
    | none => some c
    | some best =>
      if best.mentionCount.getD 0 > c.mentionCount.getD 0 then some best
      else some c

/-- Embedding of BrandAnalyzer.generateAnalytics (analyzer.ts lines
593-613); the responses-with-prompts join only contributes its row count
here. -/
def generateAnalytics (st : Storage) : Storage :=
  let responses := st.responses
  let brandMentions :=
    (responses.filter (fun r => r.brandMentioned == some true)).length
  let brandMentionRate : ℚ :=
    if responses.length > 0 then
      ((brandMentions : ℚ) / (responses.length : ℚ)) * 100
    else 0
  let topCompetitor : Option String :=
    match pickTopCompetitor st.competitors with
    | some c => if c.name == "" then none else some c.name
    | none => none
  let uniqueDomains := (dedupFirst (st.sources.map (fun s => s.domain))).length
  (createAnalytics
    { totalPrompts := responses.length, brandMentionRate := brandMentionRate,
      topCompetitor := topCompetitor, totalSources := st.sources.length,
      totalDomains := uniqueDomains } st).2

/-- Step-3 progress record (analyzer.ts lines 219-225): all five fields
are assigned. -/
def stepThreeProgress (total : Nat) : AnalysisProgress :=
  { status := .testingPrompts,
    message := "Testing prompts with ChatGPT...", progress := 30,
    totalPrompts := some total, completedPrompts := some 0 }

/-- Embedding of BrandAnalyzer.runFullAnalysis (analyzer.ts lines 86-458).
A call on a state whose single-flight flag is set returns the state
untouched (the silent no-op).  Otherwise the run resets progress,
assembles the prompt list, walks the loop, and either stops on the
cancellation branch or finalizes with analytics and a complete status;
the finally-equivalent cleanup clears the flag on every path.  The
progress merges between the reset and the step-3 snapshot assign only
fields that the step-3 snapshot overwrites wholesale, so the embedding
applies that snapshot directly. -/
def runBody (useExistingPrompts : Bool) (saved : List SavedPrompt)
    (settings : Option Settings) (oracle : Oracle) (cancelAt : Option Nat)
    (st : Storage) : SysState :=
  let setup := setupStorage useExistingPrompts saved settings oracle st
  let allPrompts := setup.2
  let total := allPrompts.length
  let r := promptLoop oracle cancelAt total 0 allPrompts 0 setup.1
    (stepThreeProgress total)
  if r.cancelled then
    { store := r.store, progress := r.progress, running := false }
  else
    let progA :=
      { r.progress with
        status := .analyzing, message := "Generating analytics...",
        progress := 85 }
    let stA := generateAnalytics r.store
    let progC :=
      { progA with
        status := .complete, message := "Analysis complete!",
        progress := 100 }
    { store := stA, progress := progC, running := false }

/-- Entry guard of runFullAnalysis (analyzer.ts lines 89-94): when the
single-flight flag is set the call returns immediately without touching
the store or the progress — but the early return is taken from inside
the try block, so the guaranteed cleanup (lines 454-457) still executes
and clears the process-wide flag.  Otherwise the run body executes on
the stored state and the flag is released by the same cleanup on every
path. -/
def runFullAnalysis (useExistingPrompts : Bool) (saved : List SavedPrompt)
    (settings : Option Settings) (oracle : Oracle) (cancelAt : Option Nat)
    (s : SysState) : SysState :=
  if s.running then { s with running := false }
  else runBody useExistingPrompts saved settings oracle cancelAt s.store

/-! ### Derived observations and concrete fixtures used by the
theorems. -/

def iterApply {α : Type} (f : α → α) : Nat → α → α
  | 0, a => a
  | n + 1, a => iterApply f n (f a)

/-- Stored mention count of the first competitor with the given name:
none when absent, some none when present with a null count. -/
def mentionCountOf (name : String) (st : Storage) : Option (Option Int) :=
  (getCompetitorByName name st).map (fun c => c.mentionCount)

/-- Stored citation count of the first source with the given domain. -/
def citationCountOf (d : String) (st : Storage) : Option (Option Int) :=
  (getSourceByDomain d st).map (fun s => s.citationCount)

/-- Occurrences of a name in a competitor list; the orchestrator issues
one increment call per occurrence. -/
def occCount (x : String) : List String → Nat
  | [] => 0
  | n :: rest => (if n == x then 1 else 0) + occCount x rest

/-- Total occurrences of a name across the analysis results of a run over
the given prompt list, starting at loop index i. -/
def totalOcc (x : String) (oracle : Oracle) : Nat → List InsertPromptData → Nat
  | _, [] => 0
  | i, p :: rest =>
    occCount x (analysisFor (oracle.outcomes i) p.text).competitors +
      totalOcc x oracle (i + 1) rest

/-- Response row one loop iteration persists: ids taken from the current
storage counters, content from the (real or synthetic) analysis. -/
def respRecOf (oracle : Oracle) (i : Nat) (p : InsertPromptData)
    (st : Storage) : ResponseRec :=
  let a := analysisFor (oracle.outcomes i) p.text
  { id := st.nextResponseId, promptId := st.nextPromptId,
    text := a.response, brandMentioned := some a.brandMentioned,
    competitorsMentioned := some a.competitors, sources := some a.sources }

/-- Response rows an uncancelled run persists for a prompt list, one per
prompt, ids counting up from the given seeds. -/
def expectedResponses (oracle : Oracle) :
    Nat → Nat → Nat → List InsertPromptData → List ResponseRec
  | _, _, _, [] => []
  | rid, pid, i, p :: rest =>
    let a := analysisFor (oracle.outcomes i) p.text
    { id := rid, promptId := pid, text := a.response,
      brandMentioned := some a.brandMentioned,
      competitorsMentioned := some a.competitors,
      sources := some a.sources } ::
      expectedResponses oracle (rid + 1) (pid + 1) (i + 1) rest

/-- Response rows an uncancelled run persists for the given prompt list
when every adapter call fails: one synthetic-fallback row per prompt,
with ids and prompt ids counting up from the given seeds. -/
def expectedFallbackResponses (oracle : Oracle) :
    Nat → Nat → Nat → List InsertPromptData → List ResponseRec
  | _, _, _, [] => []
  | rid, pid, i, p :: rest =>
    let a := fallbackAnalysis p.text (oracle.outcomes i)
    { id := rid, promptId := pid, text := a.response,
      brandMentioned := some a.brandMentioned,
      competitorsMentioned := some a.competitors,
      sources := some a.sources } ::
      expectedFallbackResponses oracle (rid + 1) (pid + 1) (i + 1) rest

def okOutcome (a : AnalysisResult) : PromptOutcome :=
  { adapter := .ok a, fallbackBrandMentioned := false,
    fallbackCompetitors := .ok [] }

def oracleOfOutcomes (f : Nat → PromptOutcome) : Oracle :=
  { outcomes := f, categorize := fun _ => "Technology",
    genStream := fun _ _ => none }

/-- Adapter result carrying two structured source URLs on one domain,
used to exercise the citation-grouping path. -/
def twoUrlResult : AnalysisResult :=
  { response := "", brandMentioned := false, competitors := [],
    sources := ["https://docs.foo.com/a", "https://docs.foo.com/b"] }

def twoUrlOracle : Oracle := oracleOfOutcomes (fun _ => okOutcome twoUrlResult)

/-- Adapter result naming one competitor. -/
def oneCompResult : AnalysisResult :=
  { response := "", brandMentioned := false, competitors := ["X"],
    sources := [] }

def oneCompOracle : Oracle := oracleOfOutcomes (fun _ => okOutcome oneCompResult)

/-- State holding one stored prompt, for existing-prompts runs. -/
def onePromptStore : Storage :=
  { emptyStorage with prompts := [{ id := 1, text := "p1", topicId := none }],
                      nextPromptId := 2 }

/-- State holding one stored prompt and a competitor X with a non-null
mention count of 5. -/
def xCompStore : Storage :=
  { emptyStorage with
    prompts := [{ id := 1, text := "p1", topicId := none }],
    nextPromptId := 2,
    competitors := [{ id := 1, name := "X", category := some "T",
                      mentionCount := some 5, lastMentioned := none }],
    nextCompetitorId := 2 }

/-- State holding a source for docs.foo.com with a non-null citation
count of 3. -/
def fooSourceStore : Storage :=
  { emptyStorage with
    sources := [{ id := 1, domain := "docs.foo.com",
                  url := "https://docs.foo.com", title := some "t",
                  citationCount := some 3, lastCited := none }],
    nextSourceId := 2 }

/-- Candidate stream whose two candidates overlap at exactly the
rejection boundary for a threshold of 50. -/
def boundaryStream : Nat → Option String :=
  fun n => if n = 0 then some "aaa" else if n = 1 then some "aaa bbb" else none

/-! ### Helper lemmas -/

theorem gptAttempt_length_le (count : Nat) (acc : List String)
    (r : Option String) : (gptAttempt count acc r).length ≤ acc.length + 1 := by
  unfold gptAttempt
  cases r with
  | none => simp
  | some raw =>
    by_cases h1 : jsTrim raw == ""
    · simp [h1]
    · by_cases h2 : acceptCandidate (cleanCandidate (jsTrim raw))
      · simp [h1, h2]
      · simp [h1, h2]

theorem genPromptLoop_length_le (stream : Nat → Option String) (count : Nat) :
    ∀ fuel idx acc, acc.length ≤ count →
      (genPromptLoop stream count fuel idx acc).length ≤ count := by
  intro fuel
  induction fuel with
  | zero => intro idx acc h; simpa [genPromptLoop] using h
  | succ n ih =>
    intro idx acc h
    unfold genPromptLoop
    by_cases hlt : acc.length < count
    · simp only [hlt, if_pos]
      exact ih _ _ (le_trans (gptAttempt_length_le count acc (stream idx)) hlt)
    · simp only [hlt, if_neg, not_false_eq_true]
      exact h

theorem addTemplates_length_le (count : Nat) :
    ∀ ts acc, acc.length ≤ count →
      (addTemplates count ts acc).length ≤ count := by
  intro ts
  induction ts with
  | nil => intro acc h; simpa [addTemplates] using h
  | cons t rest ih =>
    intro acc h
    unfold addTemplates
    by_cases h1 : count ≤ acc.length
    · simp only [h1, if_pos]; exact h
    · simp only [h1, if_neg, not_false_eq_true]
      by_cases h2 : acc.contains t
      · simp only [h2, if_pos]; exact ih acc h
      · simp only [h2, Bool.false_eq_true, if_neg, not_false_eq_true]
        refine ih _ ?_
        simp only [List.length_append, List.length_singleton]
        omega

theorem numberedFillers_length (tn : String) (from0 count : Nat) :
    (numberedFillers tn from0 count).length = count - from0 := by
  simp [numberedFillers]

/-! ### Claim theorems -/

/-- Claim C8 counterexample: on the specification input the extractor
does not return the claimed list; the second element keeps its www
prefix, because the code only prepends the protocol and never rewrites
the host. -/
theorem extract_urls_spec_list_cex :
    extractUrlsFromText "check https://example.org/a and www.foo.com/b" ≠
      ["https://example.org/a", "https://foo.com/b"] := by
  decide

/-- Claim C8 (amended): extractUrlsFromText on the input
"check https://example.org/a and www.foo.com/b" returns exactly
["https://example.org/a", "https://www.foo.com/b"] in that order — the
missing protocol is normalized to https:// with the www prefix retained,
placeholder domains are excluded, and deduplication preserves first-seen
order. -/
theorem extract_urls_concrete :
    extractUrlsFromText "check https://example.org/a and www.foo.com/b" =
      ["https://example.org/a", "https://www.foo.com/b"] := by
  decide

/-- Claim C9: in the saved-prompts branch the prompt sourcing phase
clears every Prompt, Response and Competitor record while leaving every
Source (and Topic and Analytics) record unchanged; in the
existing-prompts branch with no saved prompts it clears nothing at
all. -/
theorem clearing_frame :
    ∀ (q : SavedPrompt) (qs : List SavedPrompt) (u : Bool)
      (settings : Option Settings) (oracle : Oracle) (st : Storage),
      (setupStorage u (q :: qs) settings oracle st).1.prompts = [] ∧
      (setupStorage u (q :: qs) settings oracle st).1.responses = [] ∧
      (setupStorage u (q :: qs) settings oracle st).1.competitors = [] ∧
      (setupStorage u (q :: qs) settings oracle st).1.sources = st.sources ∧
      (setupStorage u (q :: qs) settings oracle st).1.topics = st.topics ∧
      (setupStorage u (q :: qs) settings oracle st).1.analytics =
        st.analytics ∧
      (setupStorage true [] settings oracle st).1 = st := by
  intro q qs u settings oracle st
  refine ⟨rfl, rfl, rfl, rfl, rfl, rfl, rfl⟩

/-- Claim C1 (code bug): the single-flight guard is defeated by the
guaranteed cleanup.  The early return taken while a run is active still
executes the cleanup block, so a concurrent call is not a silent no-op:
it leaves the store and the progress untouched but clears the
process-wide running flag (the active run then observes the cleared
flag at its next top-of-iteration check and cancels), and the very next
start attempt passes the guard and executes a full run body —
concretely mutating the competitor records away from the baseline. -/
theorem single_flight_guard_clears_flag :
    ∀ (u : Bool) (saved : List SavedPrompt) (settings : Option Settings)
      (oracle : Oracle) (cancelAt : Option Nat) (st : Storage)
      (prog : AnalysisProgress),
      runFullAnalysis u saved settings oracle cancelAt
        { store := st, progress := prog, running := true } =
        { store := st, progress := prog, running := false } ∧
      iterApply (runFullAnalysis u saved settings oracle cancelAt) 2
        { store := st, progress := prog, running := true } =
        runBody u saved settings oracle cancelAt st ∧
      (iterApply (runFullAnalysis true [] none oneCompOracle none) 2
        { store := onePromptStore, progress := resetProgressRec,
          running := true }).store.competitors ≠
        onePromptStore.competitors := by
  intro u saved settings oracle cancelAt st prog
  refine ⟨rfl, rfl, by decide⟩

/-- Claim C7: generatePromptsForTopic always returns exactly count
prompts, however many of the at most count times 5 candidate attempts
produce an accepted candidate: the shortfall is filled from the fixed
templates and then from numbered fillers, and overshoot is truncated. -/
theorem generate_prompts_exact_count :
    ∀ (tn td : String) (c : Nat) (stream : Nat → Option String),
      (generatePromptsForTopic tn td c stream).length = c := by
  intro tn td c stream
  unfold generatePromptsForTopic
  have hgen : (genPromptLoop stream c (c * 5) 0 []).length ≤ c :=
    genPromptLoop_length_le stream c (c * 5) 0 [] (by simp)
  by_cases h1 : (genPromptLoop stream c (c * 5) 0 []).length < c
  · simp only [h1, if_pos]
    have hp1 : (addTemplates c (fallbackTemplates tn)
        (genPromptLoop stream c (c * 5) 0 [])).length ≤ c :=
      addTemplates_length_le c _ _ (le_of_lt h1)
    by_cases h2 : (addTemplates c (fallbackTemplates tn)
        (genPromptLoop stream c (c * 5) 0 [])).length < c
    · simp only [h2, if_pos, List.length_take, List.length_append,
        numberedFillers_length]
      omega
    · simp only [h2, if_neg, not_false_eq_true, List.length_take]
      omega
  · simp only [h1, if_neg, not_false_eq_true, List.length_take]
    omega

/-- Claim C10: in the in-memory storage, createCompetitor with a mention
count of 0 stores null (the falsy coercion), createSource likewise,
updateCompetitorMentionCount and updateSourceCitationCount leave the
store untouched when the name or domain is absent, and after the
orchestrator sequence create-with-0-then-increment the stored count is
still null (the increment is a no-op on the null count), not 1. -/
theorem zero_count_coercion :
    ∀ (st : Storage) (name : String) (cat : Option String) (d u : String)
      (t : Option String) (inc : Int),
      getCompetitorByName name st = none →
      getSourceByDomain d st = none →
      (createCompetitor ⟨name, cat, some 0⟩ st).1.mentionCount = none ∧
      (createSource ⟨d, u, t, some 0⟩ st).1.citationCount = none ∧
      updateCompetitorMentionCount name inc st = st ∧
      updateSourceCitationCount d inc st = st ∧
      updateCompetitorMentionCount name inc
        (createCompetitor ⟨name, cat, some 0⟩ st).2 =
        (createCompetitor ⟨name, cat, some 0⟩ st).2 ∧
      mentionCountOf name (createCompetitor ⟨name, cat, some 0⟩ st).2 =
        some none ∧
      updateSourceCitationCount d inc
        (createSource ⟨d, u, t, some 0⟩ st).2 =
        (createSource ⟨d, u, t, some 0⟩ st).2 ∧
      citationCountOf d (createSource ⟨d, u, t, some 0⟩ st).2 =
        some none := by
  intro st name cat d u t inc h1 h2
  have hc : getCompetitorByName name
      (createCompetitor ⟨name, cat, some 0⟩ st).2 =
      some ⟨st.nextCompetitorId, name, orNullStr cat, none, none⟩ := by
    unfold getCompetitorByName at h1
    unfold getCompetitorByName createCompetitor
    simp only [List.find?_append, h1, Option.none_or, List.find?_cons,
      beq_self_eq_true, if_pos, orNullInt]
  have hs : getSourceByDomain d
      (createSource ⟨d, u, t, some 0⟩ st).2 =
      some ⟨st.nextSourceId, d, u, orNullStr t, none, some ()⟩ := by
    unfold getSourceByDomain at h2
    unfold getSourceByDomain createSource
    simp only [List.find?_append, h2, Option.none_or, List.find?_cons,
      beq_self_eq_true, if_pos, orNullInt]
  refine ⟨rfl, rfl, ?_, ?_, ?_, ?_, ?_, ?_⟩
  · unfold updateCompetitorMentionCount
    rw [h1]
  · unfold updateSourceCitationCount
    rw [h2]
  · unfold updateCompetitorMentionCount
    rw [hc]
  · unfold mentionCountOf
    rw [hc]
    rfl
  · unfold updateSourceCitationCount
    rw [hs]
  · unfold citationCountOf
    rw [hs]
    rfl

/-- Witness for zero_count_coercion at a concrete input. -/
theorem zero_count_coercion_witness :
    getCompetitorByName "X" emptyStorage = none ∧
    getSourceByDomain "d.com" emptyStorage = none ∧
    (updateCompetitorMentionCount "X" 1
      (createCompetitor ⟨"X", some "T", some 0⟩ emptyStorage).2 =
      (createCompetitor ⟨"X", some "T", some 0⟩ emptyStorage).2 ∧
     mentionCountOf "X"
       (createCompetitor ⟨"X", some "T", some 0⟩ emptyStorage).2 =
       some none) := by
  have h := zero_count_coercion emptyStorage "X" (some "T") "d.com"
    "https://d.com" (some "T") 1 (by decide) (by decide)
  exact ⟨by decide, by decide, h.2.2.2.2.1, h.2.2.2.2.2.1⟩

/-! ### Shape lemmas: each storage mutation of the per-prompt body only
rewrites its own record family, so the body acts on the other families as
the identity. -/

theorem updateCompetitorMentionCount_shape (n : String) (i : Int)
    (st : Storage) : ∃ cs,
    updateCompetitorMentionCount n i st = { st with competitors := cs } := by
  cases hf : getCompetitorByName n st with
  | none =>
    refine ⟨st.competitors, ?_⟩
    simp only [updateCompetitorMentionCount, hf]
  | some c =>
    cases hm : c.mentionCount with
    | none =>
      refine ⟨st.competitors, ?_⟩
      simp only [updateCompetitorMentionCount, hf, hm]
    | some v =>
      refine ⟨setFirstCompetitor n (fun d =>
        { d with mentionCount := some (v + i), lastMentioned := some () })
        st.competitors, ?_⟩
      simp only [updateCompetitorMentionCount, hf, hm]

theorem updateSourceCitationCount_shape (d : String) (i : Int)
    (st : Storage) : ∃ ss,
    updateSourceCitationCount d i st = { st with sources := ss } := by
  cases hf : getSourceByDomain d st with
  | none =>
    refine ⟨st.sources, ?_⟩
    simp only [updateSourceCitationCount, hf]
  | some s =>
    cases hm : s.citationCount with
    | none =>
      refine ⟨st.sources, ?_⟩
      simp only [updateSourceCitationCount, hf, hm]
    | some v =>
      refine ⟨setFirstSource d (fun e =>
        { e with citationCount := some (v + i), lastCited := some () })
        st.sources, ?_⟩
      simp only [updateSourceCitationCount, hf, hm]

theorem processCompetitors_shape (o : Oracle) :
    ∀ (names : List String) (st : Storage), ∃ cs m,
      processCompetitors o names st =
        { st with competitors := cs, nextCompetitorId := m } := by
  intro names
  induction names with
  | nil =>
    intro st
    exact ⟨st.competitors, st.nextCompetitorId, rfl⟩
  | cons n rest ih =>
    intro st
    cases hf : getCompetitorByName n st with
    | some c =>
      have hstep : processCompetitors o (n :: rest) st =
          processCompetitors o rest (updateCompetitorMentionCount n 1 st) := by
        simp only [processCompetitors, hf]
      obtain ⟨cs1, h1⟩ := updateCompetitorMentionCount_shape n 1 st
      obtain ⟨cs, m, h2⟩ := ih (updateCompetitorMentionCount n 1 st)
      rw [hstep, h1]
      rw [h1] at h2
      exact ⟨cs, m, h2⟩
    | none =>
      have hstep : processCompetitors o (n :: rest) st =
          processCompetitors o rest (updateCompetitorMentionCount n 1
            (createCompetitor ⟨n, some (categorizeCompetitor o n st),
              some 0⟩ st).2) := by
        simp only [processCompetitors, hf]
      obtain ⟨cs1, h1⟩ := updateCompetitorMentionCount_shape n 1
        (createCompetitor ⟨n, some (categorizeCompetitor o n st), some 0⟩ st).2
      obtain ⟨cs, m, h2⟩ := ih (updateCompetitorMentionCount n 1
        (createCompetitor ⟨n, some (categorizeCompetitor o n st), some 0⟩ st).2)
      rw [hstep, h1]
      rw [h1] at h2
      exact ⟨cs, m, h2⟩

theorem processDomainGroups_shape :
    ∀ (gs : List (String × List String)) (st : Storage), ∃ ss m,
      processDomainGroups gs st =
        { st with sources := ss, nextSourceId := m } := by
  intro gs
  induction gs with
  | nil =>
    intro st
    exact ⟨st.sources, st.nextSourceId, rfl⟩
  | cons g rest ih =>
    intro st
    obtain ⟨d, urls⟩ := g
    cases hf : getSourceByDomain d st with
    | some s =>
      have hstep : processDomainGroups ((d, urls) :: rest) st =
          processDomainGroups rest (updateSourceCitationCount d 1 st) := by
        simp only [processDomainGroups, hf]
      obtain ⟨ss1, h1⟩ := updateSourceCitationCount_shape d 1 st
      obtain ⟨ss, m, h2⟩ := ih (updateSourceCitationCount d 1 st)
      rw [hstep, h1]
      rw [h1] at h2
      exact ⟨ss, m, h2⟩
    | none =>
      have hstep : processDomainGroups ((d, urls) :: rest) st =
          processDomainGroups rest (updateSourceCitationCount d 1
            (createSource ⟨d, primaryUrlOf urls,
              some (generateSourceTitle d (primaryUrlOf urls)),
              some 0⟩ st).2) := by
        simp only [processDomainGroups, hf]
      obtain ⟨ss1, h1⟩ := updateSourceCitationCount_shape d 1
        (createSource ⟨d, primaryUrlOf urls,
          some (generateSourceTitle d (primaryUrlOf urls)), some 0⟩ st).2
      obtain ⟨ss, m, h2⟩ := ih (updateSourceCitationCount d 1
        (createSource ⟨d, primaryUrlOf urls,
          some (generateSourceTitle d (primaryUrlOf urls)), some 0⟩ st).2)
      rw [hstep, h1]
      rw [h1] at h2
      exact ⟨ss, m, h2⟩

theorem processPrompt_shape (o : Oracle) (i t c : Nat)
    (p : InsertPromptData) (st : Storage) : ∃ cs m ss ms,
    processPrompt o i t c p st =
      ({ st with
          prompts := st.prompts ++
            [{ id := st.nextPromptId, text := p.text, topicId := p.topicId }],
          nextPromptId := st.nextPromptId + 1,
          responses := st.responses ++ [respRecOf o i p st],
          nextResponseId := st.nextResponseId + 1,
          competitors := cs, nextCompetitorId := m,
          sources := ss, nextSourceId := ms },
        loopProgress (c + 1) t, c + 1) := by
  obtain ⟨cs, m, hc⟩ := processCompetitors_shape o
    (analysisFor (o.outcomes i) p.text).competitors (createPrompt p st).2
  obtain ⟨ss, ms, hs⟩ := processDomainGroups_shape
    (groupedDomains (allUrlsFor (analysisFor (o.outcomes i) p.text) p.text))
    (processCompetitors o (analysisFor (o.outcomes i) p.text).competitors
      (createPrompt p st).2)
  refine ⟨cs, m, ss, ms, ?_⟩
  show ((createResponse _ (processSources _ _ _)).2, _, _) = _
  unfold processSources
  rw [hc] at hs ⊢
  rw [hs]
  rfl

/-! ### Loop lemmas -/

theorem expectedResponses_length (o : Oracle) :
    ∀ (ps : List InsertPromptData) (rid pid i : Nat),
      (expectedResponses o rid pid i ps).length = ps.length := by
  intro ps
  induction ps with
  | nil => intro rid pid i; rfl
  | cons p rest ih =>
    intro rid pid i
    simp only [expectedResponses, List.length_cons, ih]

/-- Uncancelled loop: never reports cancellation, persists exactly one
response per prompt in order, and advances the id counters one step per
prompt. -/
theorem promptLoop_no_cancel (o : Oracle) (t : Nat) :
    ∀ (ps : List InsertPromptData) (i comp : Nat) (st : Storage)
      (prog : AnalysisProgress),
      (promptLoop o none t i ps comp st prog).cancelled = false ∧
      (promptLoop o none t i ps comp st prog).store.responses =
        st.responses ++
          expectedResponses o st.nextResponseId st.nextPromptId i ps ∧
      (promptLoop o none t i ps comp st prog).store.nextResponseId =
        st.nextResponseId + ps.length ∧
      (promptLoop o none t i ps comp st prog).store.nextPromptId =
        st.nextPromptId + ps.length := by
  intro ps
  induction ps with
  | nil =>
    intro i comp st prog
    refine ⟨rfl, by simp [promptLoop, expectedResponses], rfl, rfl⟩
  | cons p rest ih =>
    intro i comp st prog
    obtain ⟨cs, m, ss, ms, hp⟩ := processPrompt_shape o i t comp p st
    have hstep : promptLoop o none t i (p :: rest) comp st prog =
        promptLoop o none t (i + 1) rest
          (processPrompt o i t comp p st).2.2
          (processPrompt o i t comp p st).1
          (processPrompt o i t comp p st).2.1 := rfl
    rw [hstep, hp]
    obtain ⟨ih1, ih2, ih3, ih4⟩ := ih (i + 1) (comp + 1) _ (loopProgress (comp + 1) t)
    refine ⟨ih1, ?_, ?_, ?_⟩
    · rw [ih2]
      simp only [expectedResponses, respRecOf, List.append_assoc,
        List.cons_append, List.nil_append]
    · rw [ih3]
      simp only [List.length_cons]
      omega
    · rw [ih4]
      simp only [List.length_cons]
      omega

/-- Cancelled loop: with the flag observed cleared at the check that
follows the first pre.length iterations, the loop stops there, reports
the cancellation status and message, and has persisted exactly one
prompt and one response per completed iteration. -/
theorem promptLoop_cancel (o : Oracle) (t : Nat) :
    ∀ (pre : List InsertPromptData) (p : InsertPromptData)
      (post : List InsertPromptData) (i comp : Nat) (st : Storage)
      (prog : AnalysisProgress),
      (promptLoop o (some (i + pre.length)) t i (pre ++ p :: post) comp st
        prog).cancelled = true ∧
      (promptLoop o (some (i + pre.length)) t i (pre ++ p :: post) comp st
        prog).store.responses.length = st.responses.length + pre.length ∧
      (promptLoop o (some (i + pre.length)) t i (pre ++ p :: post) comp st
        prog).store.prompts.length = st.prompts.length + pre.length ∧
      (promptLoop o (some (i + pre.length)) t i (pre ++ p :: post) comp st
        prog).progress.status = .error ∧
      (promptLoop o (some (i + pre.length)) t i (pre ++ p :: post) comp st
        prog).progress.message = "Analysis cancelled by user" := by
  intro pre
  induction pre with
  | nil =>
    intro p post i comp st prog
    have hobs : cancelObserved (some (i + ([] : List InsertPromptData).length))
        i = true := by
      simp [cancelObserved]
    have hstep : promptLoop o (some (i + ([] : List InsertPromptData).length))
        t i (([] : List InsertPromptData) ++ p :: post) comp st prog =
        { store := st, progress := cancelMerge prog, cancelled := true,
          completed := comp } := by
      show promptLoop o (some (i + ([] : List InsertPromptData).length))
        t i (p :: post) comp st prog = _
      unfold promptLoop
      rw [hobs]
      rfl
    rw [hstep]
    exact ⟨rfl, by simp, by simp, rfl, rfl⟩
  | cons q pre' ih =>
    intro p post i comp st prog
    have hobs : cancelObserved (some (i + (q :: pre').length)) i = false := by
      simp only [cancelObserved, List.length_cons, decide_eq_false_iff_not]
      omega
    obtain ⟨cs, m, ss, ms, hq⟩ := processPrompt_shape o i t comp q st
    have hstep : promptLoop o (some (i + (q :: pre').length)) t i
        ((q :: pre') ++ p :: post) comp st prog =
        promptLoop o (some (i + (q :: pre').length)) t (i + 1)
          (pre' ++ p :: post) (processPrompt o i t comp q st).2.2
          (processPrompt o i t comp q st).1
          (processPrompt o i t comp q st).2.1 := by
      show promptLoop o (some (i + (q :: pre').length)) t i
        (q :: (pre' ++ p :: post)) comp st prog = _
      rw [promptLoop]
      rw [hobs]
      rfl
    have hk : i + (q :: pre').length = (i + 1) + pre'.length := by
      simp only [List.length_cons]
      omega
    rw [hstep, hq, hk]
    obtain ⟨ih1, ih2, ih3, ih4, ih5⟩ := ih p post (i + 1) (comp + 1) _
      (loopProgress (comp + 1) t)
    refine ⟨ih1, ?_, ?_, ih4, ih5⟩
    · rw [ih2]
      simp only [List.length_append, List.length_cons, List.length_nil]
      omega
    · rw [ih3]
      simp only [List.length_append, List.length_cons, List.length_nil]
      omega

/-- Saved-prompts setup: the stores are cleared (ids reset) and the
adopted prompt list is the coerced saved list. -/
theorem setupStorage_saved_proj (u : Bool) :
    ∀ (pre : List SavedPrompt) (p : SavedPrompt) (post : List SavedPrompt)
      (settings : Option Settings) (oracle : Oracle) (st : Storage),
      (setupStorage u (pre ++ p :: post) settings oracle st).1.responses = []
        ∧
      (setupStorage u (pre ++ p :: post) settings oracle st).1.prompts = [] ∧
      (setupStorage u (pre ++ p :: post) settings oracle st).1.nextResponseId
        = 1 ∧
      (setupStorage u (pre ++ p :: post) settings oracle st).1.nextPromptId
        = 1 ∧
      (setupStorage u (pre ++ p :: post) settings oracle st).2 =
        (pre ++ p :: post).map savedToInsert := by
  intro pre p post settings oracle st
  cases pre with
  | nil => exact ⟨rfl, rfl, rfl, rfl, rfl⟩
  | cons q pre' => exact ⟨rfl, rfl, rfl, rfl, rfl⟩

/-- Claim C2: when the cancellation flag is set after exactly k prompts
of a saved-prompts run have completed (observed at the top of iteration
k+1), the run stops without processing any further prompt, exactly the k
Response rows persisted so far remain (the cleared store holds k rows and
k prompt rows, nothing more is ever created by that run), and the final
progress is the error status with the cancellation message; the
single-flight flag is released. -/
theorem cancellation_partial_data :
    ∀ (u : Bool) (pre : List SavedPrompt) (p : SavedPrompt)
      (post : List SavedPrompt) (settings : Option Settings)
      (oracle : Oracle) (st : Storage) (prog : AnalysisProgress),
      (runFullAnalysis u (pre ++ p :: post) settings oracle
        (some pre.length)
        { store := st, progress := prog, running := false
          }).store.responses.length = pre.length ∧
      (runFullAnalysis u (pre ++ p :: post) settings oracle
        (some pre.length)
        { store := st, progress := prog, running := false
          }).store.prompts.length = pre.length ∧
      (runFullAnalysis u (pre ++ p :: post) settings oracle
        (some pre.length)
        { store := st, progress := prog, running := false
          }).progress.status = .error ∧
      (runFullAnalysis u (pre ++ p :: post) settings oracle
        (some pre.length)
        { store := st, progress := prog, running := false
          }).progress.message = "Analysis cancelled by user" ∧
      (runFullAnalysis u (pre ++ p :: post) settings oracle
        (some pre.length)
        { store := st, progress := prog, running := false }).running
        = false := by
  intro u pre p post settings oracle st prog
  have hrun : runFullAnalysis u (pre ++ p :: post) settings oracle
      (some pre.length) { store := st, progress := prog, running := false } =
      runBody u (pre ++ p :: post) settings oracle (some pre.length) st := rfl
  obtain ⟨hresp, hprom, hrid, hpid, hlist⟩ :=
    setupStorage_saved_proj u pre p post settings oracle st
  have hmap : (pre ++ p :: post).map savedToInsert =
      pre.map savedToInsert ++ savedToInsert p :: post.map savedToInsert := by
    simp
  obtain ⟨hc1, hc2, hc3, hc4, hc5⟩ := promptLoop_cancel oracle
    ((setupStorage u (pre ++ p :: post) settings oracle st).2.length)
    (pre.map savedToInsert) (savedToInsert p) (post.map savedToInsert)
    0 0 (setupStorage u (pre ++ p :: post) settings oracle st).1
    (stepThreeProgress
      ((setupStorage u (pre ++ p :: post) settings oracle st).2.length))
  have hcancel : some ((0 : Nat) + (pre.map savedToInsert).length) =
      some pre.length := by
    simp
  rw [hcancel] at hc1 hc2 hc3 hc4 hc5
  have hL : (setupStorage u (pre ++ p :: post) settings oracle st).2 =
      pre.map savedToInsert ++ savedToInsert p :: post.map savedToInsert := by
    rw [hlist, hmap]
  rw [hL] at hc1 hc2 hc3 hc4 hc5
  have hbody : runBody u (pre ++ p :: post) settings oracle
      (some pre.length) st =
      { store := (promptLoop oracle (some pre.length)
          ((pre.map savedToInsert ++ savedToInsert p ::
            post.map savedToInsert).length) 0
          (pre.map savedToInsert ++ savedToInsert p :: post.map savedToInsert)
          0 ((setupStorage u (pre ++ p :: post) settings oracle st).1)
          (stepThreeProgress ((pre.map savedToInsert ++ savedToInsert p ::
            post.map savedToInsert).length))).store,
        progress := (promptLoop oracle (some pre.length)
          ((pre.map savedToInsert ++ savedToInsert p ::
            post.map savedToInsert).length) 0
          (pre.map savedToInsert ++ savedToInsert p :: post.map savedToInsert)
          0 ((setupStorage u (pre ++ p :: post) settings oracle st).1)
          (stepThreeProgress ((pre.map savedToInsert ++ savedToInsert p ::
            post.map savedToInsert).length))).progress,
        running := false } := by
    simp only [runBody]
    rw [hL]
    rw [hc1]
    rfl
  rw [hrun, hbody]
  refine ⟨?_, ?_, hc4, hc5, rfl⟩
  · rw [hc2, hresp]
    simp
  · rw [hc3, hprom]
    simp

theorem expectedFallbackResponses_length (o : Oracle) :
    ∀ (ps : List InsertPromptData) (rid pid i : Nat),
      (expectedFallbackResponses o rid pid i ps).length = ps.length := by
  intro ps
  induction ps with
  | nil => intro rid pid i; rfl
  | cons p rest ih =>
    intro rid pid i
    simp only [expectedFallbackResponses, List.length_cons, ih]

theorem expectedResponses_allFail (fbB : Nat → Bool)
    (fbC : Nat → Except Unit (List String)) (catf : String → String)
    (gs : Nat → Nat → Option String) :
    ∀ (ps : List InsertPromptData) (rid pid i : Nat),
      expectedResponses
        ⟨fun j => ⟨Except.error (), fbB j, fbC j⟩, catf, gs⟩ rid pid i ps =
      expectedFallbackResponses
        ⟨fun j => ⟨Except.error (), fbB j, fbC j⟩, catf, gs⟩ rid pid i ps := by
  intro ps
  induction ps with
  | nil => intro rid pid i; rfl
  | cons p rest ih =>
    intro rid pid i
    simp only [expectedResponses, expectedFallbackResponses, analysisFor]
    rw [ih]

/-- Claim C3: with an adapter that always fails, a saved-prompts run is
never aborted — it finishes with the complete status — and persists
exactly one Response per prompt, each one the synthetic fallback row
(templated response text over the best-effort competitor extraction, the
random brand flag, and the fixed generic source list). -/
theorem fallback_one_response_per_prompt :
    ∀ (fbB : Nat → Bool) (fbC : Nat → Except Unit (List String))
      (catf : String → String) (gs : Nat → Nat → Option String) (u : Bool)
      (q : SavedPrompt) (qs : List SavedPrompt) (settings : Option Settings)
      (st : Storage) (prog : AnalysisProgress),
      (runFullAnalysis u (q :: qs) settings
        ⟨fun j => ⟨Except.error (), fbB j, fbC j⟩, catf, gs⟩ none
        { store := st, progress := prog, running := false }).progress.status
        = RunStatus.complete ∧
      (runFullAnalysis u (q :: qs) settings
        ⟨fun j => ⟨Except.error (), fbB j, fbC j⟩, catf, gs⟩ none
        { store := st, progress := prog, running := false }).store.responses
        = expectedFallbackResponses
            ⟨fun j => ⟨Except.error (), fbB j, fbC j⟩, catf, gs⟩ 1 1 0
            ((q :: qs).map savedToInsert) ∧
      (runFullAnalysis u (q :: qs) settings
        ⟨fun j => ⟨Except.error (), fbB j, fbC j⟩, catf, gs⟩ none
        { store := st, progress := prog, running := false
          }).store.responses.length = (q :: qs).length := by
  intro fbB fbC catf gs u q qs settings st prog
  have hrun : runFullAnalysis u (q :: qs) settings
      ⟨fun j => ⟨Except.error (), fbB j, fbC j⟩, catf, gs⟩ none
      { store := st, progress := prog, running := false } =
      runBody u (q :: qs) settings
        ⟨fun j => ⟨Except.error (), fbB j, fbC j⟩, catf, gs⟩ none st := rfl
  obtain ⟨l1, l2, l3, l4⟩ := promptLoop_no_cancel
    ⟨fun j => ⟨Except.error (), fbB j, fbC j⟩, catf, gs⟩
    ((setupStorage u (q :: qs) settings
      ⟨fun j => ⟨Except.error (), fbB j, fbC j⟩, catf, gs⟩ st).2.length)
    ((setupStorage u (q :: qs) settings
      ⟨fun j => ⟨Except.error (), fbB j, fbC j⟩, catf, gs⟩ st).2) 0 0
    ((setupStorage u (q :: qs) settings
      ⟨fun j => ⟨Except.error (), fbB j, fbC j⟩, catf, gs⟩ st).1)
    (stepThreeProgress ((setupStorage u (q :: qs) settings
      ⟨fun j => ⟨Except.error (), fbB j, fbC j⟩, catf, gs⟩ st).2.length))
  have hresp0 : (setupStorage u (q :: qs) settings
      ⟨fun j => ⟨Except.error (), fbB j, fbC j⟩, catf, gs⟩ st).1.responses
      = [] := rfl
  have hsetup2 : (setupStorage u (q :: qs) settings
      ⟨fun j => ⟨Except.error (), fbB j, fbC j⟩, catf, gs⟩ st).2
      = (q :: qs).map savedToInsert := rfl
  have hrid0 : (setupStorage u (q :: qs) settings
      ⟨fun j => ⟨Except.error (), fbB j, fbC j⟩, catf, gs⟩ st).1.nextResponseId
      = 1 := rfl
  have hpid0 : (setupStorage u (q :: qs) settings
      ⟨fun j => ⟨Except.error (), fbB j, fbC j⟩, catf, gs⟩ st).1.nextPromptId
      = 1 := rfl
  refine ⟨?_, ?_, ?_⟩
  · rw [hrun]
    simp only [runBody]
    rw [l1]
    rfl
  · rw [hrun]
    simp only [runBody]
    rw [l1]
    show (promptLoop _ none _ 0 _ 0 _ _).store.responses = _
    rw [l2, hresp0, hrid0, hpid0, hsetup2]
    rw [expectedResponses_allFail fbB fbC catf gs]
    simp
  · rw [hrun]
    simp only [runBody]
    rw [l1]
    show ((promptLoop _ none _ 0 _ 0 _ _).store.responses).length = _
    rw [l2, hresp0, hsetup2]
    simp only [List.nil_append]
    rw [expectedResponses_length]
    simp

/-! ### Competitor mention-count tracking -/

theorem find_setFirstCompetitor_self (n : String)
    (g : CompetitorRec → CompetitorRec) (hg : ∀ d, (g d).name = d.name) :
    ∀ (l : List CompetitorRec) (c : CompetitorRec),
      List.find? (fun d => d.name == n) l = some c →
      List.find? (fun d => d.name == n) (setFirstCompetitor n g l) =
        some (g c) := by
  intro l
  induction l with
  | nil => intro c h; simp at h
  | cons a rest ih =>
    intro c h
    by_cases ha : a.name == n
    · have hc : c = a := by
        rw [@List.find?_cons_of_pos _ (fun d => d.name == n) a rest ha] at h
        exact (Option.some.injEq _ _ ▸ h).symm
      subst hc
      unfold setFirstCompetitor
      rw [if_pos ha]
      have hgn : ((g c).name == n) = true := by rw [hg c]; exact ha
      exact @List.find?_cons_of_pos _ (fun d => d.name == n) (g c) rest hgn
    · rw [@List.find?_cons_of_neg _ (fun d => d.name == n) a rest ha] at h
      unfold setFirstCompetitor
      rw [if_neg ha]
      rw [@List.find?_cons_of_neg _ (fun d => d.name == n) a
        (setFirstCompetitor n g rest) ha]
      exact ih c h

theorem find_setFirstCompetitor_other (n m : String) (hne : m ≠ n)
    (g : CompetitorRec → CompetitorRec) (hg : ∀ d, (g d).name = d.name) :
    ∀ (l : List CompetitorRec),
      List.find? (fun d => d.name == m) (setFirstCompetitor n g l) =
        List.find? (fun d => d.name == m) l := by
  intro l
  induction l with
  | nil => rfl
  | cons a rest ih =>
    by_cases ha : a.name == n
    · have han : a.name = n := by
        rw [beq_iff_eq] at ha
        exact ha
      have ham : ¬(a.name == m) = true := by
        simp only [beq_iff_eq, han]
        exact fun hmm => hne hmm.symm
      have hgm : ¬((g a).name == m) = true := by
        rw [hg a]
        exact ham
      unfold setFirstCompetitor
      rw [if_pos ha]
      rw [@List.find?_cons_of_neg _ (fun d => d.name == m) (g a) rest hgm,
        @List.find?_cons_of_neg _ (fun d => d.name == m) a rest ham]
    · unfold setFirstCompetitor
      rw [if_neg ha]
      by_cases ham : a.name == m
      · rw [@List.find?_cons_of_pos _ (fun d => d.name == m) a
          (setFirstCompetitor n g rest) ham,
          @List.find?_cons_of_pos _ (fun d => d.name == m) a rest ham]
      · rw [@List.find?_cons_of_neg _ (fun d => d.name == m) a
          (setFirstCompetitor n g rest) ham,
          @List.find?_cons_of_neg _ (fun d => d.name == m) a rest ham]
        exact ih

theorem updateCMC_self (n : String) (st : Storage) (c : CompetitorRec)
    (v : Int) (hf : getCompetitorByName n st = some c)
    (hm : c.mentionCount = some v) :
    mentionCountOf n (updateCompetitorMentionCount n 1 st) =
      some (some (v + 1)) := by
  simp only [updateCompetitorMentionCount, hf, hm]
  unfold mentionCountOf getCompetitorByName
  unfold getCompetitorByName at hf
  rw [find_setFirstCompetitor_self n
    (fun d => { d with mentionCount := some (v + 1), lastMentioned := some () })
    (fun d => rfl) st.competitors c hf]
  rfl

theorem updateCMC_other (n m : String) (hne : m ≠ n) (inc : Int)
    (st : Storage) :
    mentionCountOf m (updateCompetitorMentionCount n inc st) =
      mentionCountOf m st := by
  cases hf : getCompetitorByName n st with
  | none => simp only [updateCompetitorMentionCount, hf]
  | some c =>
    cases hm : c.mentionCount with
    | none => simp only [updateCompetitorMentionCount, hf, hm]
    | some v =>
      simp only [updateCompetitorMentionCount, hf, hm]
      unfold mentionCountOf getCompetitorByName
      rw [find_setFirstCompetitor_other n m hne
        (fun d => { d with mentionCount := some (v + inc),
                           lastMentioned := some () })
        (fun d => rfl) st.competitors]

theorem mentionCountOf_createCompetitor (m : String)
    (d : InsertCompetitorData) (st : Storage) (x : Option Int) :
    mentionCountOf m st = some x →
    mentionCountOf m (createCompetitor d st).2 = some x := by
  intro h
  unfold mentionCountOf getCompetitorByName at h ⊢
  cases hf : List.find? (fun c => c.name == m) st.competitors with
  | none => rw [hf] at h; simp at h
  | some c =>
    rw [hf] at h
    show (List.find? (fun c => c.name == m)
      (st.competitors ++ [_])).map (fun c => c.mentionCount) = some x
    rw [List.find?_append, hf]
    simpa using h

theorem processCompetitors_mention (o : Oracle) (x : String) :
    ∀ (names : List String) (st : Storage) (v : Int),
      mentionCountOf x st = some (some v) →
      mentionCountOf x (processCompetitors o names st) =
        some (some (v + occCount x names)) := by
  intro names
  induction names with
  | nil =>
    intro st v h
    simpa [processCompetitors, occCount] using h
  | cons n rest ih =>
    intro st v h
    by_cases hnx : n = x
    · subst hnx
      obtain ⟨c, hf, hm⟩ : ∃ c, getCompetitorByName n st = some c ∧
          c.mentionCount = some v := by
        unfold mentionCountOf at h
        cases hf : getCompetitorByName n st with
        | none => rw [hf] at h; simp at h
        | some c =>
          rw [hf] at h
          exact ⟨c, rfl, by simpa using h⟩
      have hstep : processCompetitors o (n :: rest) st =
          processCompetitors o rest (updateCompetitorMentionCount n 1 st) := by
        simp only [processCompetitors, hf]
      rw [hstep]
      have hupd := updateCMC_self n st c v hf hm
      have hrest := ih (updateCompetitorMentionCount n 1 st) (v + 1) hupd
      rw [hrest]
      simp only [Option.some.injEq, occCount, beq_self_eq_true, if_pos]
      push_cast
      ring
    · have hxn : x ≠ n := fun hh => hnx hh.symm
      have hocc : occCount x (n :: rest) = occCount x rest := by
        have : ¬(n == x) = true := by
          simp only [beq_iff_eq]
          exact hnx
        simp [occCount, this]
      cases hf : getCompetitorByName n st with
      | some c =>
        have hstep : processCompetitors o (n :: rest) st =
            processCompetitors o rest
              (updateCompetitorMentionCount n 1 st) := by
          simp only [processCompetitors, hf]
        rw [hstep, hocc]
        exact ih _ v ((updateCMC_other n x hxn 1 st).trans h)
      | none =>
        have hstep : processCompetitors o (n :: rest) st =
            processCompetitors o rest (updateCompetitorMentionCount n 1
              (createCompetitor ⟨n, some (categorizeCompetitor o n st),
                some 0⟩ st).2) := by
          simp only [processCompetitors, hf]
        rw [hstep, hocc]
        refine ih _ v ?_
        rw [updateCMC_other n x hxn 1]
        exact mentionCountOf_createCompetitor x _ st (some v) h

theorem mentionCountOf_congr (x : String) (st1 st2 : Storage)
    (h : st1.competitors = st2.competitors) :
    mentionCountOf x st1 = mentionCountOf x st2 := by
  unfold mentionCountOf getCompetitorByName
  rw [h]

set_option maxHeartbeats 2000000 in
theorem processPrompt_mention (o : Oracle) (i t comp : Nat)
    (p : InsertPromptData) (st : Storage) (x : String) (v : Int) :
    mentionCountOf x st = some (some v) →
    mentionCountOf x (processPrompt o i t comp p st).1 =
      some (some (v +
        occCount x (analysisFor (o.outcomes i) p.text).competitors)) := by
  intro h
  have h1 : mentionCountOf x (createPrompt p st).2 = some (some v) := h
  have h2 := processCompetitors_mention o x
    (analysisFor (o.outcomes i) p.text).competitors (createPrompt p st).2 v h1
  obtain ⟨ss, ms, hs⟩ := processDomainGroups_shape
    (groupedDomains (allUrlsFor (analysisFor (o.outcomes i) p.text) p.text))
    (processCompetitors o (analysisFor (o.outcomes i) p.text).competitors
      (createPrompt p st).2)
  have hcomp : (processPrompt o i t comp p st).1.competitors =
      (processSources (analysisFor (o.outcomes i) p.text) p.text
        (processCompetitors o (analysisFor (o.outcomes i) p.text).competitors
          (createPrompt p st).2)).competitors := rfl
  rw [mentionCountOf_congr x _ _ hcomp]
  unfold processSources
  rw [hs]
  exact h2

theorem promptLoop_mention (o : Oracle) (t : Nat) (x : String) :
    ∀ (ps : List InsertPromptData) (i comp : Nat) (st : Storage)
      (prog : AnalysisProgress) (v : Int),
      mentionCountOf x st = some (some v) →
      mentionCountOf x (promptLoop o none t i ps comp st prog).store =
        some (some (v + totalOcc x o i ps)) := by
  intro ps
  induction ps with
  | nil =>
    intro i comp st prog v h
    simpa [promptLoop, totalOcc] using h
  | cons p rest ih =>
    intro i comp st prog v h
    have h1 := processPrompt_mention o i t comp p st x v h
    have h2 := ih (i + 1) ((processPrompt o i t comp p st).2.2)
      ((processPrompt o i t comp p st).1)
      ((processPrompt o i t comp p st).2.1)
      (v + occCount x (analysisFor (o.outcomes i) p.text).competitors) h1
    show mentionCountOf x (promptLoop o none t (i + 1) rest
      ((processPrompt o i t comp p st).2.2)
      ((processPrompt o i t comp p st).1)
      ((processPrompt o i t comp p st).2.1)).store = _
    rw [h2]
    simp only [Option.some.injEq, totalOcc]
    push_cast
    ring

/-- Claim C5 (amended): for a competitor already registered with a
non-null mentionCount, an uncancelled existing-prompts run increases the
stored count by exactly the number of occurrences of that name across the
analysis results of the run (one increment per occurrence, never a
decrement).  A name absent from the registry is created with its count
stored as null (the 0-to-null coercion of C10), so the subsequent
increments are no-ops and its stored count stays null. -/
theorem mention_count_prior_plus_k :
    ∀ (oracle : Oracle) (settings : Option Settings) (st : Storage)
      (prog : AnalysisProgress) (x : String) (v : Int),
      mentionCountOf x st = some (some v) →
      mentionCountOf x (runFullAnalysis true [] settings oracle none
        { store := st, progress := prog, running := false }).store =
        some (some (v + totalOcc x oracle 0
          (st.prompts.map promptToInsert))) := by
  intro oracle settings st prog x v h
  have hrun : runFullAnalysis true [] settings oracle none
      { store := st, progress := prog, running := false } =
      runBody true [] settings oracle none st := rfl
  have l1 := (promptLoop_no_cancel oracle
    ((setupStorage true [] settings oracle st).2.length)
    ((setupStorage true [] settings oracle st).2) 0 0
    ((setupStorage true [] settings oracle st).1)
    (stepThreeProgress
      ((setupStorage true [] settings oracle st).2.length))).1
  have lm := promptLoop_mention oracle
    ((setupStorage true [] settings oracle st).2.length) x
    ((setupStorage true [] settings oracle st).2) 0 0
    ((setupStorage true [] settings oracle st).1)
    (stepThreeProgress
      ((setupStorage true [] settings oracle st).2.length)) v h
  rw [hrun]
  simp only [runBody]
  rw [l1]
  exact lm

/-- Witness for mention_count_prior_plus_k: a store holding competitor X
with count 5 and one stored prompt, an adapter whose every result names X
once. -/
theorem mention_count_prior_plus_k_witness :
    mentionCountOf "X" xCompStore = some (some 5) ∧
    mentionCountOf "X" (runFullAnalysis true [] none oneCompOracle none
      { store := xCompStore, progress := resetProgressRec,
        running := false }).store =
      some (some ((5 : Int) + totalOcc "X" oneCompOracle 0
        (xCompStore.prompts.map promptToInsert))) :=
  ⟨by decide, mention_count_prior_plus_k oneCompOracle none xCompStore
    resetProgressRec "X" 5 (by decide)⟩

/-- Claim C5 counterexample: a name absent from the registry that appears
in exactly one analysis result of the run ends with a stored mentionCount
of null, not 1, refuting create-with-0-then-increment-per-appearance. -/
theorem mention_new_competitor_null_cex :
    mentionCountOf "X" onePromptStore = none ∧
    totalOcc "X" oneCompOracle 0 (onePromptStore.prompts.map promptToInsert)
      = 1 ∧
    mentionCountOf "X" (runFullAnalysis true [] none oneCompOracle none
      { store := onePromptStore, progress := resetProgressRec,
        running := false }).store = some none ∧
    mentionCountOf "X" (runFullAnalysis true [] none oneCompOracle none
      { store := onePromptStore, progress := resetProgressRec,
        running := false }).store ≠ some (some 1) := by
  refine ⟨by decide, by decide, by decide, by decide⟩

/-! ### Source citation-count tracking -/

theorem find_setFirstSource_self (n : String)
    (g : SourceRec → SourceRec) (hg : ∀ d, (g d).domain = d.domain) :
    ∀ (l : List SourceRec) (c : SourceRec),
      List.find? (fun d => d.domain == n) l = some c →
      List.find? (fun d => d.domain == n) (setFirstSource n g l) =
        some (g c) := by
  intro l
  induction l with
  | nil => intro c h; simp at h
  | cons a rest ih =>
    intro c h
    by_cases ha : a.domain == n
    · have hc : c = a := by
        rw [@List.find?_cons_of_pos _ (fun d => d.domain == n) a rest ha] at h
        exact (Option.some.injEq _ _ ▸ h).symm
      subst hc
      unfold setFirstSource
      rw [if_pos ha]
      have hgn : ((g c).domain == n) = true := by rw [hg c]; exact ha
      exact @List.find?_cons_of_pos _ (fun d => d.domain == n) (g c) rest hgn
    · rw [@List.find?_cons_of_neg _ (fun d => d.domain == n) a rest ha] at h
      unfold setFirstSource
      rw [if_neg ha]
      rw [@List.find?_cons_of_neg _ (fun d => d.domain == n) a
        (setFirstSource n g rest) ha]
      exact ih c h

theorem find_setFirstSource_other (n m : String) (hne : m ≠ n)
    (g : SourceRec → SourceRec) (hg : ∀ d, (g d).domain = d.domain) :
    ∀ (l : List SourceRec),
      List.find? (fun d => d.domain == m) (setFirstSource n g l) =
        List.find? (fun d => d.domain == m) l := by
  intro l
  induction l with
  | nil => rfl
  | cons a rest ih =>
    by_cases ha : a.domain == n
    · have han : a.domain = n := by
        rw [beq_iff_eq] at ha
        exact ha
      have ham : ¬(a.domain == m) = true := by
        simp only [beq_iff_eq, han]
        exact fun hmm => hne hmm.symm
      have hgm : ¬((g a).domain == m) = true := by
        rw [hg a]
        exact ham
      unfold setFirstSource
      rw [if_pos ha]
      rw [@List.find?_cons_of_neg _ (fun d => d.domain == m) (g a) rest hgm,
        @List.find?_cons_of_neg _ (fun d => d.domain == m) a rest ham]
    · unfold setFirstSource
      rw [if_neg ha]
      by_cases ham : a.domain == m
      · rw [@List.find?_cons_of_pos _ (fun d => d.domain == m) a
          (setFirstSource n g rest) ham,
          @List.find?_cons_of_pos _ (fun d => d.domain == m) a rest ham]
      · rw [@List.find?_cons_of_neg _ (fun d => d.domain == m) a
          (setFirstSource n g rest) ham,
          @List.find?_cons_of_neg _ (fun d => d.domain == m) a rest ham]
        exact ih

theorem updateSCC_self (n : String) (st : Storage) (s : SourceRec)
    (v : Int) (hf : getSourceByDomain n st = some s)
    (hm : s.citationCount = some v) :
    citationCountOf n (updateSourceCitationCount n 1 st) =
      some (some (v + 1)) := by
  simp only [updateSourceCitationCount, hf, hm]
  unfold citationCountOf getSourceByDomain
  unfold getSourceByDomain at hf
  rw [find_setFirstSource_self n
    (fun d => { d with citationCount := some (v + 1), lastCited := some () })
    (fun d => rfl) st.sources s hf]
  rfl

theorem updateSCC_other (n m : String) (hne : m ≠ n) (inc : Int)
    (st : Storage) :
    citationCountOf m (updateSourceCitationCount n inc st) =
      citationCountOf m st := by
  cases hf : getSourceByDomain n st with
  | none => simp only [updateSourceCitationCount, hf]
  | some s =>
    cases hm : s.citationCount with
    | none => simp only [updateSourceCitationCount, hf, hm]
    | some v =>
      simp only [updateSourceCitationCount, hf, hm]
      unfold citationCountOf getSourceByDomain
      rw [find_setFirstSource_other n m hne
        (fun d => { d with citationCount := some (v + inc),
                           lastCited := some () })
        (fun d => rfl) st.sources]

theorem citationCountOf_createSource_other (m : String)
    (dd : InsertSourceData) (st : Storage) (hne : m ≠ dd.domain) :
    citationCountOf m (createSource dd st).2 = citationCountOf m st := by
  unfold citationCountOf getSourceByDomain
  show (List.find? (fun c => c.domain == m)
    (st.sources ++ [_])).map (fun c => c.citationCount) = _
  rw [List.find?_append]
  have hnm : ¬(((⟨st.nextSourceId, dd.domain, dd.url, orNullStr dd.title,
      orNullInt dd.citationCount, some ()⟩ : SourceRec).domain == m)
      = true) := by
    simp only [beq_iff_eq]
    exact fun hh => hne hh.symm
  rw [@List.find?_cons_of_neg _ (fun c => c.domain == m)
    (⟨st.nextSourceId, dd.domain, dd.url, orNullStr dd.title,
      orNullInt dd.citationCount, some ()⟩ : SourceRec) [] hnm]
  simp

theorem upsertDomain_keys (d u : String) :
    ∀ (l : List (String × List String)),
      ((upsertDomain d u l).map Prod.fst = l.map Prod.fst ∧
        d ∈ l.map Prod.fst) ∨
      ((upsertDomain d u l).map Prod.fst = l.map Prod.fst ++ [d] ∧
        d ∉ l.map Prod.fst) := by
  intro l
  induction l with
  | nil =>
    right
    constructor
    · rfl
    · simp
  | cons kv rest ih =>
    obtain ⟨k, us⟩ := kv
    by_cases hk : k == d
    · left
      have hkd : k = d := by rw [beq_iff_eq] at hk; exact hk
      constructor
      · unfold upsertDomain
        rw [if_pos hk]
        rfl
      · simp [hkd]
    · have hkd : k ≠ d := by
        intro hh
        rw [hh] at hk
        simp at hk
      rcases ih with ⟨he, hm⟩ | ⟨he, hnm⟩
      · left
        constructor
        · unfold upsertDomain
          rw [if_neg hk]
          simp only [List.map_cons, he]
        · simp only [List.map_cons]
          exact List.mem_cons_of_mem _ hm
      · right
        constructor
        · unfold upsertDomain
          rw [if_neg hk]
          simp only [List.map_cons, he, List.cons_append]
        · simp only [List.map_cons, List.mem_cons]
          rintro (hh | hh)
          · exact hkd hh.symm
          · exact hnm hh

theorem groupGo_keys_nodup :
    ∀ (urls : List String) (acc : List (String × List String)),
      (acc.map Prod.fst).Nodup →
      ((groupUrlsByDomainGo acc urls).map Prod.fst).Nodup := by
  intro urls
  induction urls with
  | nil =>
    intro acc h
    simpa [groupUrlsByDomainGo] using h
  | cons u rest ih =>
    intro acc h
    simp only [groupUrlsByDomainGo]
    split
    · exact ih acc h
    · split
      · exact ih acc h
      · refine ih _ ?_
        rcases upsertDomain_keys (extractDomainFromUrl u) u acc with
          ⟨he, _⟩ | ⟨he, hnm⟩
        · rw [he]; exact h
        · rw [he]
          rw [List.nodup_append]
          refine ⟨h, List.nodup_singleton _, ?_⟩
          intro a ha hb
          simp only [List.mem_singleton] at hb
          subst hb
          exact hnm ha

theorem citationCountOf_congr (x : String) (st1 st2 : Storage)
    (h : st1.sources = st2.sources) :
    citationCountOf x st1 = citationCountOf x st2 := by
  unfold citationCountOf getSourceByDomain
  rw [h]

theorem processDomainGroups_pres (d : String) :
    ∀ (gs : List (String × List String)) (st : Storage),
      d ∉ gs.map Prod.fst →
      citationCountOf d (processDomainGroups gs st) = citationCountOf d st := by
  intro gs
  induction gs with
  | nil => intro st _; rfl
  | cons kv rest ih =>
    obtain ⟨k, urls⟩ := kv
    intro st hmem
    have hdk : d ≠ k := by
      intro hh
      exact hmem (by simp [hh])
    have hrest : d ∉ rest.map Prod.fst := by
      intro hh
      exact hmem (by simp [hh])
    cases hf : getSourceByDomain k st with
    | some s =>
      have hstep : processDomainGroups ((k, urls) :: rest) st =
          processDomainGroups rest (updateSourceCitationCount k 1 st) := by
        simp only [processDomainGroups, hf]
      rw [hstep, ih _ hrest, updateSCC_other k d hdk]
    | none =>
      have hstep : processDomainGroups ((k, urls) :: rest) st =
          processDomainGroups rest (updateSourceCitationCount k 1
            (createSource ⟨k, primaryUrlOf urls,
              some (generateSourceTitle k (primaryUrlOf urls)),
              some 0⟩ st).2) := by
        simp only [processDomainGroups, hf]
      rw [hstep, ih _ hrest, updateSCC_other k d hdk,
        citationCountOf_createSource_other d _ st hdk]

theorem processDomainGroups_citation (d : String) :
    ∀ (gs : List (String × List String)) (st : Storage) (v : Int),
      (gs.map Prod.fst).Nodup → d ∈ gs.map Prod.fst →
      citationCountOf d st = some (some v) →
      citationCountOf d (processDomainGroups gs st) =
        some (some (v + 1)) := by
  intro gs
  induction gs with
  | nil => intro st v _ hmem _; simp at hmem
  | cons kv rest ih =>
    obtain ⟨k, urls⟩ := kv
    intro st v hnd hmem hcc
    by_cases hkd : k = d
    · subst hkd
      have hrest : k ∉ rest.map Prod.fst := by
        rw [List.map_cons, List.nodup_cons] at hnd
        exact hnd.1
      obtain ⟨s, hf, hm⟩ : ∃ s, getSourceByDomain k st = some s ∧
          s.citationCount = some v := by
        unfold citationCountOf at hcc
        cases hf : getSourceByDomain k st with
        | none => rw [hf] at hcc; simp at hcc
        | some s =>
          rw [hf] at hcc
          exact ⟨s, rfl, by simpa using hcc⟩
      have hstep : processDomainGroups ((k, urls) :: rest) st =
          processDomainGroups rest (updateSourceCitationCount k 1 st) := by
        simp only [processDomainGroups, hf]
      rw [hstep, processDomainGroups_pres k rest _ hrest]
      exact updateSCC_self k st s v hf hm
    · have hdk : d ≠ k := fun hh => hkd hh.symm
      have hmem2 : d ∈ rest.map Prod.fst := by
        rw [List.map_cons, List.mem_cons] at hmem
        rcases hmem with hh | hh
        · exact absurd hh.symm hkd
        · exact hh
      have hnd2 : (rest.map Prod.fst).Nodup := by
        rw [List.map_cons, List.nodup_cons] at hnd
        exact hnd.2
      cases hf : getSourceByDomain k st with
      | some s =>
        have hstep : processDomainGroups ((k, urls) :: rest) st =
            processDomainGroups rest (updateSourceCitationCount k 1 st) := by
          simp only [processDomainGroups, hf]
        rw [hstep]
        refine ih _ v hnd2 hmem2 ?_
        rw [updateSCC_other k d hdk]
        exact hcc
      | none =>
        have hstep : processDomainGroups ((k, urls) :: rest) st =
            processDomainGroups rest (updateSourceCitationCount k 1
              (createSource ⟨k, primaryUrlOf urls,
                some (generateSourceTitle k (primaryUrlOf urls)),
                some 0⟩ st).2) := by
          simp only [processDomainGroups, hf]
        rw [hstep]
        refine ih _ v hnd2 hmem2 ?_
        rw [updateSCC_other k d hdk,
          citationCountOf_createSource_other d _ st hdk]
        exact hcc

set_option maxHeartbeats 2000000 in
/-- Claim C4 (amended): within the processing of one prompt, the citation
increment for a grouped domain is applied exactly once — once per domain,
not once per URL — so when the Source for that domain already exists with
a non-null citationCount, the stored count increases by exactly 1 however
many URLs were grouped under the domain.  For a domain whose Source is
created during the same processing, the count is stored as null by the
0-to-null coercion (C10) and the increment is a no-op, so it stays null
rather than becoming 1. -/
theorem citation_increment_once_existing :
    ∀ (oracle : Oracle) (i t comp : Nat) (p : InsertPromptData)
      (st : Storage) (d : String) (v : Int),
      citationCountOf d st = some (some v) →
      d ∈ (groupedDomains (allUrlsFor
        (analysisFor (oracle.outcomes i) p.text) p.text)).map Prod.fst →
      citationCountOf d (processPrompt oracle i t comp p st).1 =
        some (some (v + 1)) := by
  intro oracle i t comp p st d v hcc hmem
  have h1 : citationCountOf d (createPrompt p st).2 = some (some v) := hcc
  obtain ⟨cs, m, hcsh⟩ := processCompetitors_shape oracle
    (analysisFor (oracle.outcomes i) p.text).competitors (createPrompt p st).2
  have h2 : citationCountOf d (processCompetitors oracle
      (analysisFor (oracle.outcomes i) p.text).competitors
      (createPrompt p st).2) = some (some v) := by
    rw [hcsh]
    exact h1
  have hnd : ((groupedDomains (allUrlsFor
      (analysisFor (oracle.outcomes i) p.text) p.text)).map Prod.fst).Nodup :=
    groupGo_keys_nodup _ [] (by simp)
  have hgrp := processDomainGroups_citation d
    (groupedDomains (allUrlsFor (analysisFor (oracle.outcomes i) p.text)
      p.text))
    (processCompetitors oracle
      (analysisFor (oracle.outcomes i) p.text).competitors
      (createPrompt p st).2) v hnd hmem h2
  have hsrcs : (processPrompt oracle i t comp p st).1.sources =
      (processSources (analysisFor (oracle.outcomes i) p.text) p.text
        (processCompetitors oracle
          (analysisFor (oracle.outcomes i) p.text).competitors
          (createPrompt p st).2)).sources := rfl
  rw [citationCountOf_congr d _ _ hsrcs]
  unfold processSources
  exact hgrp

/-- Witness for citation_increment_once_existing: an existing Source for
docs.foo.com with count 3 and a response carrying two URLs on that one
domain; the count becomes exactly 4. -/
theorem citation_increment_once_existing_witness :
    citationCountOf "docs.foo.com" fooSourceStore = some (some 3) ∧
    "docs.foo.com" ∈ (groupedDomains (allUrlsFor
      (analysisFor (twoUrlOracle.outcomes 0) "p") "p")).map Prod.fst ∧
    citationCountOf "docs.foo.com"
      (processPrompt twoUrlOracle 0 1 0 ⟨"p", none⟩ fooSourceStore).1 =
      some (some ((3 : Int) + 1)) :=
  ⟨by decide, by decide, citation_increment_once_existing twoUrlOracle 0 1 0
    ⟨"p", none⟩ fooSourceStore "docs.foo.com" 3 (by decide) (by decide)⟩

/-- Claim C4 counterexample: two URLs grouped under one fresh domain; the
increment is applied once but hits the null stored count, so the
citationCount of that domain ends null, not increased by exactly 1. -/
theorem citation_new_source_null_cex :
    (groupedDomains (allUrlsFor (analysisFor (twoUrlOracle.outcomes 0) "p")
      "p")).map Prod.fst = ["docs.foo.com"] ∧
    ((groupedDomains (allUrlsFor (analysisFor (twoUrlOracle.outcomes 0) "p")
      "p")).headD ("", [])).2.length = 2 ∧
    citationCountOf "docs.foo.com" emptyStorage = none ∧
    citationCountOf "docs.foo.com"
      (processPrompt twoUrlOracle 0 1 0 ⟨"p", none⟩ emptyStorage).1 =
      some none ∧
    citationCountOf "docs.foo.com"
      (processPrompt twoUrlOracle 0 1 0 ⟨"p", none⟩ emptyStorage).1 ≠
      some (some 1) := by
  refine ⟨by decide, by decide, by decide, by decide, by decide⟩

/-! ### Diversity-filter lemmas -/

theorem isDiverse_implies (t : String) (acc : List String) (T : ℚ)
    (h : isDiverse t acc T = true) :
    ∀ p ∈ acc, simExceeds (wordOverlapSim t p) (100 - T) = false := by
  intro p hp
  unfold isDiverse at h
  by_cases hacc : acc.isEmpty
  · rw [List.isEmpty_iff] at hacc
    subst hacc
    simp at hp
  · rw [if_neg hacc] at h
    have hh := (List.all_eq_true).mp h p hp
    simpa using hh

theorem gdAttempt_pairwise (T : ℚ) (acc : List String) (r : Option String)
    (h : List.Pairwise
      (fun a b => simExceeds (wordOverlapSim b a) (100 - T) = false) acc) :
    List.Pairwise
      (fun a b => simExceeds (wordOverlapSim b a) (100 - T) = false)
      (gdAttempt T acc r) := by
  cases r with
  | none => exact h
  | some raw =>
    show List.Pairwise _
      (if jsTrim raw == "" then acc
       else if acc.isEmpty || isDiverse (jsTrim raw) acc T then
         acc ++ [jsTrim raw]
       else acc)
    by_cases h1 : jsTrim raw == ""
    · rw [if_pos h1]
      exact h
    · rw [if_neg h1]
      by_cases h2 : acc.isEmpty || isDiverse (jsTrim raw) acc T
      · rw [if_pos h2]
        rw [List.pairwise_append]
        refine ⟨h, List.pairwise_singleton _ _, ?_⟩
        intro a ha b hb
        simp only [List.mem_singleton] at hb
        subst hb
        rcases Bool.or_eq_true _ _ ▸ h2 with hemp | hdiv
        · rw [List.isEmpty_iff] at hemp
          subst hemp
          simp at ha
        · exact isDiverse_implies (jsTrim raw) acc T hdiv a ha
      · rw [if_neg h2]
        exact h

theorem gdLoop_pairwise (stream : Nat → Option String) (count : Nat)
    (T : ℚ) :
    ∀ (fuel idx : Nat) (acc : List String),
      List.Pairwise
        (fun a b => simExceeds (wordOverlapSim b a) (100 - T) = false) acc →
      List.Pairwise
        (fun a b => simExceeds (wordOverlapSim b a) (100 - T) = false)
        (gdLoop stream count T fuel idx acc) := by
  intro fuel
  induction fuel with
  | zero => intro idx acc h; exact h
  | succ n ih =>
    intro idx acc h
    show List.Pairwise _
      (if acc.length < count then
        gdLoop stream count T n (idx + 1) (gdAttempt T acc (stream idx))
      else acc)
    by_cases hlt : acc.length < count
    · rw [if_pos hlt]
      exact ih (idx + 1) _ (gdAttempt_pairwise T acc (stream idx) h)
    · rw [if_neg hlt]
      exact h

theorem addDiverseFallbacks_pairwise (count : Nat) (T : ℚ) :
    ∀ (fs acc : List String),
      List.Pairwise
        (fun a b => simExceeds (wordOverlapSim b a) (100 - T) = false) acc →
      List.Pairwise
        (fun a b => simExceeds (wordOverlapSim b a) (100 - T) = false)
        (addDiverseFallbacks count T fs acc) := by
  intro fs
  induction fs with
  | nil => intro acc h; exact h
  | cons f rest ih =>
    intro acc h
    show List.Pairwise _
      (if count ≤ acc.length then acc
       else if isDiverse f acc T then
         addDiverseFallbacks count T rest (acc ++ [f])
       else addDiverseFallbacks count T rest acc)
    by_cases h1 : count ≤ acc.length
    · rw [if_pos h1]
      exact h
    · rw [if_neg h1]
      by_cases h2 : isDiverse f acc T
      · rw [if_pos h2]
        refine ih _ ?_
        rw [List.pairwise_append]
        refine ⟨h, List.pairwise_singleton _ _, ?_⟩
        intro a ha b hb
        simp only [List.mem_singleton] at hb
        subst hb
        exact isDiverse_implies _ acc T h2 a ha
      · rw [if_neg h2]
        exact ih _ h

/-- Claim C6 (amended): every prompt pool produced by the
diversity-filtered generator is pairwise non-exceeding — for each earlier
member a and later member b, the word-overlap similarity of b against a
does not exceed (100 - T); the overlap may equal (100 - T) exactly, since
the filter rejects only on strict excess.  isDiverse returns true on an
empty pool, and returns false exactly when the overlap with some pool
member exceeds (100 - T). -/
theorem diversity_pool_no_exceed :
    ∀ (tn : String) (comps : List String) (ppt : Nat) (T : ℚ)
      (stream : Nat → Option String) (c : String) (pool : List String),
      List.Pairwise
        (fun a b => simExceeds (wordOverlapSim b a) (100 - T) = false)
        (generateDiversePrompts tn comps ppt T stream) ∧
      isDiverse c [] T = true ∧
      (isDiverse c pool T = false ↔
        ∃ p ∈ pool, simExceeds (wordOverlapSim c p) (100 - T) = true) := by
  intro tn comps ppt T stream c pool
  refine ⟨?_, rfl, ?_⟩
  · have hbase := gdLoop_pairwise stream ppt T (ppt * 3) 0 []
      (List.Pairwise.nil)
    show List.Pairwise _
      ((if (gdLoop stream ppt T (ppt * 3) 0 []).length < ppt then
          (if (addDiverseFallbacks ppt T
              (generateFallbackPrompts tn comps)
              (gdLoop stream ppt T (ppt * 3) 0 [])).isEmpty then
            addDiverseFallbacks ppt T (generateFallbackPrompts tn comps)
              (gdLoop stream ppt T (ppt * 3) 0 []) ++
              ["Tell me about " ++ tn ++ " options available today."]
          else addDiverseFallbacks ppt T (generateFallbackPrompts tn comps)
            (gdLoop stream ppt T (ppt * 3) 0 []))
        else gdLoop stream ppt T (ppt * 3) 0 []).take ppt)
    refine List.Pairwise.sublist (List.take_sublist _ _) ?_
    by_cases h1 : (gdLoop stream ppt T (ppt * 3) 0 []).length < ppt
    · rw [if_pos h1]
      have hp1 := addDiverseFallbacks_pairwise ppt T
        (generateFallbackPrompts tn comps)
        (gdLoop stream ppt T (ppt * 3) 0 []) hbase
      by_cases h2 : (addDiverseFallbacks ppt T
          (generateFallbackPrompts tn comps)
          (gdLoop stream ppt T (ppt * 3) 0 [])).isEmpty
      · rw [if_pos h2]
        rw [List.isEmpty_iff] at h2
        rw [h2]
        simp
      · rw [if_neg h2]
        exact hp1
    · rw [if_neg h1]
      exact hbase
  · unfold isDiverse
    cases pool with
    | nil => simp
    | cons q rest =>
      rw [if_neg (by simp)]
      constructor
      · intro h
        have hne : ¬((q :: rest).all
            (fun p => !simExceeds (wordOverlapSim c p) (100 - T)) = true) := by
          rw [h]
          simp
        rw [List.all_eq_true] at hne
        push_neg at hne
        obtain ⟨p, hp, hnp⟩ := hne
        refine ⟨p, hp, ?_⟩
        simpa using hnp
      · rintro ⟨p, hp, hval⟩
        by_contra hne
        have hall : (q :: rest).all
            (fun p => !simExceeds (wordOverlapSim c p) (100 - T)) = true := by
          cases hb : (q :: rest).all
            (fun p => !simExceeds (wordOverlapSim c p) (100 - T)) with
          | true => rfl
          | false => exact absurd hb hne
        have hh := List.all_eq_true.mp hall p hp
        simp [hval] at hh

/-- Claim C6 counterexample: with threshold 50 the candidate pair aaa and
aaa bbb has word-overlap similarity exactly 50 = 100 - 50, which the
filter accepts (it rejects only on strict excess), so the generator emits
a pool whose members meet but do not stay strictly below the bound —
refuting the strictly-less-than claim. -/
theorem diversity_boundary_cex :
    generateDiversePrompts "topic" ["c"] 2 50 boundaryStream =
      ["aaa", "aaa bbb"] ∧
    wordOverlapSim "aaa bbb" "aaa" = some 50 ∧
    isDiverse "aaa bbb" ["aaa"] 50 = true ∧
    ¬((50 : ℚ) < 100 - 50) := by
  have hI : (promptWordFinset "aaa bbb" ∩ promptWordFinset "aaa").card = 1 :=
    by decide
  have hU : (promptWordFinset "aaa bbb" ∪ promptWordFinset "aaa").card = 2 :=
    by decide
  have hsim : wordOverlapSim "aaa bbb" "aaa" = some 50 := by
    simp only [wordOverlapSim]
    rw [hI, hU]
    rw [if_neg (by decide : ¬((2 : Nat) = 0))]
    norm_num
  have hdiv : isDiverse "aaa bbb" ["aaa"] 50 = true := by
    have hc : ¬(((["aaa"] : List String).isEmpty) = true) := by decide
    simp only [isDiverse]
    rw [if_neg hc]
    simp only [List.all_cons, List.all_nil, Bool.and_true, hsim, simExceeds]
    rw [decide_eq_false (show ¬((100 : ℚ) - 50 < 50) by norm_num)]
    rfl
  have hatt : gdAttempt 50 ["aaa"] (some "aaa bbb") = ["aaa", "aaa bbb"] := by
    simp only [gdAttempt]
    have ht : jsTrim "aaa bbb" = "aaa bbb" := by decide
    rw [ht]
    rw [if_neg (by decide : ¬((("aaa bbb" : String) == "") = true))]
    have hcond : ((["aaa"] : List String).isEmpty ||
        isDiverse "aaa bbb" ["aaa"] 50) = true := by
      rw [hdiv, Bool.or_true]
    rw [if_pos hcond]
    rfl
  have hbase : gdLoop boundaryStream 2 50 (2 * 3) 0 [] =
      ["aaa", "aaa bbb"] := by
    show (if ([] : List String).length < 2 then
        gdLoop boundaryStream 2 50 5 1 (gdAttempt 50 [] (boundaryStream 0))
      else []) = ["aaa", "aaa bbb"]
    rw [if_pos (by decide : ([] : List String).length < 2)]
    have h0 : gdAttempt 50 [] (boundaryStream 0) = ["aaa"] := by decide
    rw [h0]
    show (if (["aaa"] : List String).length < 2 then
        gdLoop boundaryStream 2 50 4 2
          (gdAttempt 50 ["aaa"] (boundaryStream 1))
      else ["aaa"]) = ["aaa", "aaa bbb"]
    rw [if_pos (by decide : (["aaa"] : List String).length < 2)]
    have h1 : boundaryStream 1 = some "aaa bbb" := by decide
    rw [h1, hatt]
    show (if (["aaa", "aaa bbb"] : List String).length < 2 then
        gdLoop boundaryStream 2 50 3 3
          (gdAttempt 50 ["aaa", "aaa bbb"] (boundaryStream 2))
      else ["aaa", "aaa bbb"]) = ["aaa", "aaa bbb"]
    rw [if_neg (by decide : ¬((["aaa", "aaa bbb"] : List String).length < 2))]
  have hgen : generateDiversePrompts "topic" ["c"] 2 50 boundaryStream =
      ["aaa", "aaa bbb"] := by
    simp only [generateDiversePrompts]
    rw [hbase]
    rw [if_neg (by decide : ¬((["aaa", "aaa bbb"] : List String).length < 2))]
    rfl
  exact ⟨hgen, hsim, hdiv, by norm_num⟩

end LBT
